import Mathlib

/-!
# Volleyball annotation tool: frame addressing, navigation and reconciliation

A shallow embedding of `static/js/main.js`.  The script keeps one mutable
`state` object, one `keyboardState` object and writes to a handful of DOM
elements; here the three are fields of a `World` value that every function
takes and returns.

Conventions of the embedding

* A JavaScript number is an integer or `NaN`: `JSNum = Option Int`, `none`
  being `NaN`.  Frame numbers stay far below `2^53`, so integer arithmetic is
  exact; fractions and infinities do not occur in the script.
* A function that can throw returns an `Outcome`: the world at the point where
  it completed or where the exception left it.
* The two `async` functions are split at their `await`: a step for the part
  that runs before the request is sent and a step for the part that runs when
  the response (or the failure) arrives.
* `console.log` / `console.error` have no effect on the state and are left out.
* Numbers that reach the script from the page or the server as numbers (the
  value of a range input, `task.frame`) are integers; `parseInt` of such a
  number is the number itself.
* Listeners that only forward to a function modelled here (the `change` of the
  video selector, the click on a task item or a name item, the arrow keys) and
  `init`, which fetches the video list and loads the first video, have no
  definition of their own.
-/

namespace Volleyball

/-! ## JavaScript primitives -/

/-- A JavaScript number of the script: an integer, or `NaN` (`none`). -/
abbrev JSNum := Option Int

/-- The operator `a + b` on numbers. -/
def jsAdd (a b : JSNum) : JSNum :=
  match a, b with
  | some x, some y => some (x + y)
  | _, _ => none

/-- The operator `a - b` on numbers. -/
def jsSub (a b : JSNum) : JSNum :=
  match a, b with
  | some x, some y => some (x - y)
  | _, _ => none

/-- The operator `a >= b`: false as soon as one side is `NaN`. -/
def jsGe (a b : JSNum) : Bool :=
  match a, b with
  | some x, some y => decide (y ≤ x)
  | _, _ => false

/-- The operator `a <= b`: false as soon as one side is `NaN`. -/
def jsLe (a b : JSNum) : Bool :=
  match a, b with
  | some x, some y => decide (x ≤ y)
  | _, _ => false

/-- The operator `a === b` on numbers: `NaN` is not equal to itself. -/
def jsStrictEq (a b : JSNum) : Bool :=
  match a, b with
  | some x, some y => decide (x = y)
  | _, _ => false

/-- `Math.max(a, b)`: `NaN` when one argument is. -/
def mathMax (a b : JSNum) : JSNum :=
  match a, b with
  | some x, some y => some (max x y)
  | _, _ => none

/-- `Math.min(a, b)`: `NaN` when one argument is. -/
def mathMin (a b : JSNum) : JSNum :=
  match a, b with
  | some x, some y => some (min x y)
  | _, _ => none

/-- `Math.floor(a / d)` for a positive integer literal `d`. -/
def floorDiv (a : JSNum) (d : Int) : JSNum :=
  a.map (fun x => Int.fdiv x d)

/-- The operator `a % d` for a positive integer literal `d`: the remainder has
the sign of the dividend. -/
def jsRem (a : JSNum) (d : Int) : JSNum :=
  a.map (fun x => Int.tmod x d)

/-- `String(n)` for a number. -/
def jsString (n : JSNum) : String :=
  match n with
  | some x => toString x
  | none => "NaN"

/-- `s.padStart(n, '0')`. -/
def padStart (s : String) (n : Nat) : String :=
  String.mk (List.replicate (n - s.length) '0') ++ s

/-- The white space that `parseInt` skips in front of the number. -/
def isStrWhiteSpace (c : Char) : Bool :=
  c.toNat ∈ [0x09, 0x0A, 0x0B, 0x0C, 0x0D, 0x20, 0xA0, 0x1680, 0x2000, 0x2001, 0x2002,
    0x2003, 0x2004, 0x2005, 0x2006, 0x2007, 0x2008, 0x2009, 0x200A, 0x2028, 0x2029,
    0x202F, 0x205F, 0x3000, 0xFEFF]

/-- Value of a character as a digit of the given radix (10 or 16). -/
def digitValue (radix : Nat) (c : Char) : Option Nat :=
  if '0' ≤ c ∧ c ≤ '9' then some (c.toNat - 48)
  else if radix = 16 ∧ 'a' ≤ c ∧ c ≤ 'f' then some (c.toNat - 87)
  else if radix = 16 ∧ 'A' ≤ c ∧ c ≤ 'F' then some (c.toNat - 55)
  else none

/-- Reads the longest run of digits at the front of the characters; `none`
when there is no digit at all. -/
def readDigits (radix : Nat) : List Char → Option Nat → Option Nat
  | [], acc => acc
  | c :: rest, acc =>
    match digitValue radix c with
    | some d => readDigits radix rest (some (acc.getD 0 * radix + d))
    | none => acc

/-- The sign and the rest, after `parseInt` has looked for a leading `+` or `-`. -/
def readSign : List Char → Bool × List Char
  | '-' :: rest => (true, rest)
  | '+' :: rest => (false, rest)
  | cs => (false, cs)

/-- Applies the sign read by `readSign`. -/
def signed (negative : Bool) (n : Option Nat) : JSNum :=
  n.map (fun v => if negative then -(v : Int) else (v : Int))

/-- `parseInt(s, 10)` on a string. -/
def parseInt10 (s : String) : JSNum :=
  let sg := readSign (s.data.dropWhile isStrWhiteSpace)
  signed sg.1 (readDigits 10 sg.2 none)

/-- `parseInt(s)` without a radix: as with radix 10, except that a `0x` or `0X`
in front of the digits selects radix 16. -/
def parseIntAuto (s : String) : JSNum :=
  let sg := readSign (s.data.dropWhile isStrWhiteSpace)
  match sg.2 with
  | '0' :: 'x' :: rest => signed sg.1 (readDigits 16 rest none)
  | '0' :: 'X' :: rest => signed sg.1 (readDigits 16 rest none)
  | cs => signed sg.1 (readDigits 10 cs none)

/-- `parseInt(x, 10)` where `x` is an array element that may be `undefined`
(`none`): `undefined` is first turned into the string "undefined". -/
def parseIntArg (x : Option String) : JSNum :=
  match x with
  | some s => parseInt10 s
  | none => parseInt10 "undefined"

/-- `s.split('_')` on the characters of a string. -/
def splitChars : List Char → List (List Char)
  | [] => [[]]
  | c :: rest =>
    if c = '_' then [] :: splitChars rest
    else
      match splitChars rest with
      | piece :: pieces => (c :: piece) :: pieces
      | [] => [[c]]

/-- `s.split('_')`. -/
def split (s : String) : List String :=
  (splitChars s.data).map String.mk

/-- `parseInt(folder.split('_')[0], 10)`: the first frame of a folder. -/
def folderStart (folderName : String) : JSNum :=
  parseIntArg ((split folderName)[0]?)

/-- `parseInt(folder.split('_')[1], 10)`: the last frame of a folder. -/
def folderEnd (folderName : String) : JSNum :=
  parseIntArg ((split folderName)[1]?)

/-- `xs[i]` for an integer index: `undefined` (`none`) outside the array. -/
def arrayAt {α : Type} (xs : List α) (i : Int) : Option α :=
  if 0 ≤ i then xs[i.toNat]? else none

/-- Truthiness of a string that may be `undefined` or `null`: only a present,
non-empty string is truthy. -/
def truthy (x : Option String) : Bool :=
  match x with
  | some s => s != ""
  | none => false

/-! ## Data model -/

/-- An item of required work: `{ name, frame }`. -/
structure Task where
  name : String
  frame : Int
  deriving DecidableEq, Repr

/-- The confirmed label of a task: `{ frame, name }`. -/
structure Annotation where
  frame : JSNum
  name : String
  deriving DecidableEq, Repr

/-- The `state` object of the script.  `imageCache` is a `Set` and
`existingAnnotations` a `Map`: both are kept in insertion order. -/
structure State where
  videos : List String
  currentVideo : Option String
  folders : List String
  tasks : List Task
  names : List String
  currentFolderIndex : Int
  currentFrameIndex : JSNum
  imageCache : List String
  currentTaskIndex : Int
  existingAnnotations : List (JSNum × Annotation)
  deriving DecidableEq, Repr

/-- The `keyboardState` object.  `frameInterval` is `null` (`none`) or the
handle of the running interval, represented by the direction its callback
captured. -/
structure KeyboardState where
  frameInterval : Option Int
  frameSpeed : Nat
  currentDirection : Int
  deriving DecidableEq, Repr

/-- A child of the name list element: a paragraph set through `innerHTML`, or
a name item and whether it carries the class `selected`. -/
inductive NameEl where
  | message (html : String)
  | item (name : String) (selected : Bool)
  deriving DecidableEq, Repr

/-- A child of the task list element: a paragraph set through `innerHTML`, or
a task item with its text and whether it carries the green (annotated) and
the blue (current task) classes. -/
inductive TaskEl where
  | message (html : String)
  | item (text : String) (annotated : Bool) (current : Bool)
  deriving DecidableEq, Repr

/-- What the script has written to the page.  `toasts` lists the messages
passed to `showToast`, oldest first. -/
structure Dom where
  toasts : List String
  frameImageSrc : String
  folderSliderValue : Int
  folderSliderMax : Int
  frameSliderValue : JSNum
  folderSliderLabel : String
  frameSliderLabel : String
  currentFolderDisplay : String
  frameInfoDisplay : String
  nameList : List NameEl
  taskList : List TaskEl
  taskProgress : String
  deriving DecidableEq, Repr

/-- Everything the script reads and writes. -/
structure World where
  state : State
  keyboard : KeyboardState
  dom : Dom
  deriving DecidableEq, Repr

/-- How a call ended: normally, or with an exception thrown; in both cases
with the world as the call left it. -/
inductive Outcome where
  | done (w : World)
  | threw (error : String) (w : World)
  deriving DecidableEq, Repr

/-- The world a call left behind. -/
def Outcome.world : Outcome → World
  | .done w => w
  | .threw _ w => w

/-- Whether the call threw. -/
def Outcome.hasThrown : Outcome → Bool
  | .done _ => false
  | .threw _ _ => true

/-- Runs the next statement unless an exception is already on its way. -/
def Outcome.andThen (o : Outcome) (next : World → Outcome) : Outcome :=
  match o with
  | .done w => next w
  | .threw e w => .threw e w

/-- The state the script starts from. -/
def initialWorld : World :=
  { state :=
      { videos := [], currentVideo := none, folders := [], tasks := [], names := [],
        currentFolderIndex := 0, currentFrameIndex := some 0, imageCache := [],
        currentTaskIndex := -1, existingAnnotations := [] }
    keyboard := { frameInterval := none, frameSpeed := 50, currentDirection := 0 }
    dom :=
      { toasts := [], frameImageSrc := "", folderSliderValue := 0, folderSliderMax := 0,
        frameSliderValue := some 0, folderSliderLabel := "", frameSliderLabel := "",
        currentFolderDisplay := "", frameInfoDisplay := "", nameList := [], taskList := [],
        taskProgress := "" } }

/-- The message of the `TypeError` raised by `folderName.split` when
`folderName` is `undefined`. -/
def splitOfUndefined : String := "folderName is undefined"

/-- The message of the `TypeError` raised by `task.frame` when `task` is
`undefined`. -/
def frameOfUndefined : String := "task is undefined"

/-- The message of the `TypeError` raised by `annotation.frame` when
`annotation` is `undefined`. -/
def annotationOfUndefined : String := "annotation is undefined"

/-! ## The annotation map and the image cache -/

/-- `map.has(key)`. -/
def mapHas (m : List (JSNum × Annotation)) (key : JSNum) : Bool :=
  match m with
  | [] => false
  | entry :: rest => if entry.1 = key then true else mapHas rest key

/-- `map.get(key)`. -/
def mapGet (m : List (JSNum × Annotation)) (key : JSNum) : Option Annotation :=
  match m with
  | [] => none
  | entry :: rest => if entry.1 = key then some entry.2 else mapGet rest key

/-- `map.set(key, value)`: an existing key keeps its place. -/
def mapSet (m : List (JSNum × Annotation)) (key : JSNum) (value : Annotation) :
    List (JSNum × Annotation) :=
  match m with
  | [] => [(key, value)]
  | entry :: rest =>
    if entry.1 = key then (key, value) :: rest else entry :: mapSet rest key value

/-- `set.has(url)`. -/
def cacheHas (cache : List String) (url : String) : Bool :=
  cache.contains url

/-- `set.add(url)`. -/
def cacheAdd (cache : List String) (url : String) : List String :=
  if cacheHas cache url then cache else cache ++ [url]

/-- `set.delete(url)`. -/
def cacheDelete (cache : List String) (url : String) : List String :=
  cache.erase url

/-- `showToast(message)`. -/
def showToast (message : String) (w : World) : World :=
  { w with dom := { w.dom with toasts := w.dom.toasts ++ [message] } }

/-! ## Prefetch -/

/-- The text a template literal gives for `state.currentVideo`. -/
def videoText (video : Option String) : String :=
  match video with
  | some v => v
  | none => "null"

/-- The image URL of a frame: the six digit file name under the folder of the
video. -/
def imagePath (video : Option String) (folderName : String) (frameIdx : JSNum) : String :=
  "/static/frames/" ++ videoText video ++ "/" ++ folderName ++ "/" ++
    (padStart (jsString frameIdx) 6 ++ ".jpg")

/-- The numbers of frames to warm ahead of and behind the centre. -/
def preloadCounts (direction : Int) : Nat × Nat :=
  if direction > 0 then (15, 5)
  else if direction < 0 then (5, 15)
  else (10, 10)

/-- The inner `for ... of` loop of `preloadImages`: name and start of the first
folder whose range contains the frame, `('', 0)` when there is none. -/
def findTargetFolder (targetAbsoluteFrame : JSNum) : List String → String × JSNum
  | [] => ("", some 0)
  | folder :: rest =>
    let start := folderStart folder
    let stop := folderEnd folder
    if jsGe targetAbsoluteFrame start && jsLe targetAbsoluteFrame stop then (folder, start)
    else findTargetFolder targetAbsoluteFrame rest

/-- One round of the outer loop of `preloadImages`, for the offset `i`. -/
def preloadStep (video : Option String) (folders : List String) (centerAbsoluteFrame : JSNum)
    (cache : List String) (i : Int) : List String :=
  if i = 0 then cache
  else
    let targetAbsoluteFrame := jsAdd centerAbsoluteFrame (some i)
    let target := findTargetFolder targetAbsoluteFrame folders
    if truthy (some target.1) then
      let targetFrameIdx := jsSub targetAbsoluteFrame target.2
      let path := imagePath video target.1 targetFrameIdx
      if !cacheHas cache path then cacheAdd cache path else cache
    else cache

/-- The values `i` takes in the outer loop: `-preloadBackward .. preloadForward`. -/
def preloadOffsets (preloadForward preloadBackward : Nat) : List Int :=
  (List.range (preloadBackward + preloadForward + 1)).map
    (fun (k : Nat) => (k : Int) - (preloadBackward : Int))

/-- The cleanup at the end of `preloadImages`: above 100 entries, the first
`size - 80` entries in insertion order are deleted. -/
def cacheCleanup (cache : List String) : List String :=
  if cache.length > 100 then
    let toRemove := cache.take (cache.length - 80)
    toRemove.foldl cacheDelete cache
  else cache

/-- `preloadImages(centerFolderIdx, centerFrameIdx, direction)`. -/
def preloadImages (centerFolderIdx : Int) (centerFrameIdx : JSNum) (direction : Int)
    (w : World) : World :=
  if !truthy w.state.currentVideo || w.state.folders.length == 0 then w
  else
    let counts := preloadCounts direction
    match arrayAt w.state.folders centerFolderIdx with
    | none => w
    | some currentFolderName =>
      if !truthy (some currentFolderName) then w
      else
        let currentFolderStart := folderStart currentFolderName
        let centerAbsoluteFrame := jsAdd currentFolderStart centerFrameIdx
        let cache := (preloadOffsets counts.1 counts.2).foldl
          (preloadStep w.state.currentVideo w.state.folders centerAbsoluteFrame)
          w.state.imageCache
        { w with state := { w.state with imageCache := cacheCleanup cache } }

/-! ## View refresh and the frame locator -/

/-- `getCurrentAbsoluteFrame()`: throws when the folder index points outside a
non-empty folder list. -/
def getCurrentAbsoluteFrame (s : State) : Except String JSNum :=
  if s.folders.length == 0 then .ok (some 0)
  else
    match arrayAt s.folders s.currentFolderIndex with
    | none => .error splitOfUndefined
    | some folderName =>
      let folderStartFrame := folderStart folderName
      .ok (jsAdd folderStartFrame s.currentFrameIndex)

/-- The test of `renderNameList` for one name. -/
def shouldHighlight (s : State) (currentAbsoluteFrame : JSNum) (name : String) : Bool :=
  if s.currentTaskIndex ≠ -1 && mapHas s.existingAnnotations (some s.currentTaskIndex) then
    match mapGet s.existingAnnotations (some s.currentTaskIndex) with
    | some ann =>
      decide (ann.name = name) && jsStrictEq ann.frame currentAbsoluteFrame
    | none => false
  else false

/-- `renderNameList()`. -/
def renderNameList (w : World) : Outcome :=
  let w1 := { w with dom := { w.dom with nameList := [] } }
  if w1.state.names.length == 0 then
    .done { w1 with dom := { w1.dom with
      nameList := [.message "<p class=\"text-gray-500\">No names for this video</p>"] } }
  else
    match getCurrentAbsoluteFrame w1.state with
    | .error e => .threw e w1
    | .ok currentAbsoluteFrame =>
      .done { w1 with dom := { w1.dom with
        nameList := w1.state.names.map
          (fun name => .item name (shouldHighlight w1.state currentAbsoluteFrame name)) } }

/-- The `hh:mm:ss` text of `updateView` for an absolute frame, at 25 frames a
second. -/
def timecode (absoluteFrame : JSNum) : String :=
  let timeInSeconds := floorDiv absoluteFrame 25
  let hh := padStart (jsString (floorDiv timeInSeconds 3600)) 2
  let mm := padStart (jsString (floorDiv (jsRem timeInSeconds 3600) 60)) 2
  let ss := padStart (jsString (jsRem timeInSeconds 60)) 2
  hh ++ ":" ++ mm ++ ":" ++ ss

/-- `updateView()`. -/
def updateView (w : World) : Outcome :=
  if !truthy w.state.currentVideo || w.state.folders.length == 0 then
    let src := "https://placehold.co/1280x720/000000/FFFFFF?text=No+Data+For+" ++
      videoText w.state.currentVideo
    .done { w with dom := { w.dom with frameImageSrc := src } }
  else
    let folderIndex := max 0 (min ((w.state.folders.length : Int) - 1) w.state.currentFolderIndex)
    let frameIndex := mathMax (some 0) (mathMin (some 999) w.state.currentFrameIndex)
    let w1 := { w with state := { w.state with
      currentFolderIndex := folderIndex, currentFrameIndex := frameIndex } }
    let folderName := arrayAt w1.state.folders w1.state.currentFolderIndex
    match folderName with
    | none => .done w1
    | some name =>
      if !truthy (some name) then .done w1
      else
        let absoluteFrame := jsAdd (folderStart name) w1.state.currentFrameIndex
        let folderLabel := "Folder (" ++ toString (w1.state.currentFolderIndex + 1) ++ " / " ++
          toString w1.state.folders.length ++ ")"
        let frameLabel := "Frame (" ++ jsString w1.state.currentFrameIndex ++ ")"
        let frameInfo := "Time: " ++ timecode absoluteFrame ++ " | Absolute Frame: " ++
          jsString absoluteFrame
        let w2 := { w1 with dom := { w1.dom with
          frameImageSrc := imagePath w1.state.currentVideo name w1.state.currentFrameIndex,
          folderSliderValue := w1.state.currentFolderIndex,
          frameSliderValue := w1.state.currentFrameIndex,
          folderSliderLabel := folderLabel,
          frameSliderLabel := frameLabel,
          currentFolderDisplay := name,
          frameInfoDisplay := frameInfo } }
        renderNameList w2

/-- The search loop of `goToAbsoluteFrame`, from index `i` on: the index of the
first folder whose range contains the frame, `-1` when there is none. -/
def findFolderIndex (absoluteFrame : JSNum) : List String → Nat → Int
  | [], _ => -1
  | folderName :: rest, i =>
    let start := folderStart folderName
    let stop := folderEnd folderName
    if jsGe absoluteFrame start && jsLe absoluteFrame stop then (i : Int)
    else findFolderIndex absoluteFrame rest (i + 1)

/-- `goToAbsoluteFrame(absoluteFrame)`. -/
def goToAbsoluteFrame (absoluteFrame : JSNum) (w : World) : Outcome :=
  if w.state.folders.length == 0 then .done w
  else
    let targetFolderIndex := findFolderIndex absoluteFrame w.state.folders 0
    if targetFolderIndex ≠ -1 then
      match arrayAt w.state.folders targetFolderIndex with
      | none => .threw splitOfUndefined w
      | some folderName =>
        let folderStartFrame := folderStart folderName
        let targetFrameIndex := jsSub absoluteFrame folderStartFrame
        let w1 := { w with state := { w.state with
          currentFolderIndex := targetFolderIndex, currentFrameIndex := targetFrameIndex } }
        (updateView w1).andThen (fun w2 =>
          .done (preloadImages w2.state.currentFolderIndex w2.state.currentFrameIndex 0 w2))
    else
      .done (showToast
        ("Error: Frame " ++ jsString absoluteFrame ++ " is outside any known folder range.") w)

/-! ## Task list and task selection -/

/-- The text of one task item. -/
def taskText (annotations : List (JSNum × Annotation)) (index : Nat) (task : Task) : String :=
  let displayText := toString (index + 1) ++ ": " ++ task.name ++ " (" ++ toString task.frame ++ ")"
  if mapHas annotations (some (index : Int)) then
    match mapGet annotations (some (index : Int)) with
    | some ann =>
      displayText ++ " ✓ [" ++ ann.name ++ " @ " ++ jsString ann.frame ++ "]"
    | none => displayText
  else displayText

/-- The number of tasks that have an annotation, as counted by `renderTaskList`. -/
def finishedCount (s : State) : Nat :=
  ((List.range s.tasks.length).filter
    (fun (index : Nat) => mapHas s.existingAnnotations (some (index : Int)))).length

/-- `renderTaskList()`. -/
def renderTaskList (w : World) : World :=
  if w.state.tasks.length == 0 then
    { w with dom := { w.dom with
      taskList := [.message "<p class=\"text-gray-500\">No tasks for this video</p>"],
      taskProgress := "(0/0)" } }
  else
    let progress := "(" ++ toString (finishedCount w.state) ++ "/" ++
      toString w.state.tasks.length ++ ")"
    let items := w.state.tasks.enum.map (fun (entry : Nat × Task) =>
      TaskEl.item (taskText w.state.existingAnnotations entry.1 entry.2)
        (mapHas w.state.existingAnnotations (some (entry.1 : Int)))
        (decide (w.state.currentTaskIndex = (entry.1 : Int))))
    { w with dom := { w.dom with taskList := items, taskProgress := progress } }

/-- `selectTask(taskIndex)`.  `task.frame` is a number and `parseInt` of an
integer is that integer. -/
def selectTask (taskIndex : Int) (w : World) : Outcome :=
  let w1 := { w with state := { w.state with currentTaskIndex := taskIndex } }
  let task := arrayAt w1.state.tasks taskIndex
  let navigated :=
    if mapHas w1.state.existingAnnotations (some taskIndex) then
      match mapGet w1.state.existingAnnotations (some taskIndex) with
      | some ann => goToAbsoluteFrame ann.frame w1
      | none => .threw annotationOfUndefined w1
    else
      match task with
      | some t => goToAbsoluteFrame (some t.frame) w1
      | none => .threw frameOfUndefined w1
  navigated.andThen (fun w2 => .done (renderTaskList w2))

/-! ## Loading a video -/

/-- The JSON object `GET /api/video_data/{video}` answers with; a field may be
absent. -/
structure VideoData where
  folders : Option (List String)
  tasks : Option (List Task)
  names : Option (List String)
  existing_annotations : Option (List (String × Annotation))
  deriving DecidableEq, Repr

/-- How the request of `loadVideoData` ended: `fetch` or `response.text()`
rejected, the status was not a success, the body was not JSON, or the data
arrived. -/
inductive VideoDataResponse where
  | rejected (message : String)
  | notOk (status : Nat) (statusText : String)
  | badJson (message : String)
  | ok (data : VideoData)
  deriving DecidableEq, Repr

/-- The part of `loadVideoData(videoName)` that runs before the request is
answered. -/
def loadVideoDataStart (videoName : String) (w : World) : World :=
  if !truthy (some videoName) then w
  else { w with state := { w.state with currentVideo := some videoName, imageCache := [] } }

/-- The `catch` block of `loadVideoData`. -/
def loadVideoDataCatch (message : String) (w : World) : World :=
  let w1 := showToast ("Failed to load video data: " ++ message) w
  { w1 with dom := { w1.dom with
    taskList := [.message ("<p class=\"text-red-500\">Loading failed: " ++ message ++ "</p>")],
    nameList := [.message "<p class=\"text-red-500\">Loading failed</p>"] } }

/-- The loop of `loadVideoData` that restores the annotations of the server. -/
def restoreAnnotations (entries : List (String × Annotation)) : List (JSNum × Annotation) :=
  entries.foldl (fun m (entry : String × Annotation) => mapSet m (parseIntAuto entry.1) entry.2) []

/-- The body of the `try` block of `loadVideoData` once the data is parsed. -/
def applyVideoData (data : VideoData) (w : World) : Outcome :=
  let w1 := { w with state := { w.state with
    folders := data.folders.getD [],
    tasks := data.tasks.getD [],
    names := data.names.getD [],
    currentTaskIndex := -1,
    existingAnnotations := restoreAnnotations (data.existing_annotations.getD []) } }
  let shown :=
    if w1.state.tasks.length > 0 && w1.state.folders.length > 0 then
      selectTask 0 w1
    else if w1.state.folders.length > 0 then
      let w2 := { w1 with state := { w1.state with
        currentFolderIndex := 0, currentFrameIndex := some 0 } }
      (updateView w2).andThen (fun w3 => .done (preloadImages 0 (some 0) 0 w3))
    else
      updateView w1
  shown.andThen (fun w4 =>
    let sliderMax : Int :=
      if w4.state.folders.length > 0 then (w4.state.folders.length : Int) - 1 else 0
    let w5 := { w4 with dom := { w4.dom with folderSliderMax := sliderMax } }
    renderNameList (renderTaskList w5))

/-- The part of `loadVideoData` that runs when the request is answered. -/
def loadVideoDataFinish (response : VideoDataResponse) (w : World) : World :=
  match response with
  | .rejected message => loadVideoDataCatch message w
  | .notOk status statusText =>
    loadVideoDataCatch ("Server error: " ++ toString status ++ " " ++ statusText) w
  | .badJson message => loadVideoDataCatch message w
  | .ok data =>
    match applyVideoData data w with
    | .done w1 => w1
    | .threw message w1 => loadVideoDataCatch message w1

/-- `loadVideoData(videoName)` when nothing else happens while the request is
under way. -/
def loadVideoData (videoName : String) (response : VideoDataResponse) (w : World) : World :=
  if !truthy (some videoName) then w
  else loadVideoDataFinish response (loadVideoDataStart videoName w)

/-! ## Saving an annotation -/

/-- The body of the `POST /api/annotate` request. -/
structure AnnotationData where
  video : Option String
  folder : String
  imageFile : String
  absoluteFrame : JSNum
  name : String
  taskIndex : Int
  deriving DecidableEq, Repr

/-- How the request of `saveAnnotation` ended: `fetch` or `response.json()`
rejected, or a JSON body arrived with `response.ok` and, possibly, a
`message`. -/
inductive SaveResponse where
  | rejected (message : String)
  | json (ok : Bool) (message : Option String)
  deriving DecidableEq, Repr

/-- How the part of `saveAnnotation` before the request ended: no video is
selected, `folderName.split` threw, or the request was sent. -/
inductive SaveStart where
  | noVideo (w : World)
  | threw (error : String) (w : World)
  | sent (request : AnnotationData) (w : World)
  deriving DecidableEq, Repr

/-- The part of `saveAnnotation(name)` that runs before the request is
answered. -/
def saveAnnotationStart (name : String) (w : World) : SaveStart :=
  if !truthy w.state.currentVideo then
    .noVideo (showToast "Please select a video first" w)
  else
    match arrayAt w.state.folders w.state.currentFolderIndex with
    | none => .threw splitOfUndefined w
    | some folderName =>
      let imageFile := padStart (jsString w.state.currentFrameIndex) 6 ++ ".jpg"
      let folderStartFrame := folderStart folderName
      let absoluteFrame := jsAdd folderStartFrame w.state.currentFrameIndex
      .sent { video := w.state.currentVideo, folder := folderName, imageFile := imageFile,
              absoluteFrame := absoluteFrame, name := name,
              taskIndex := w.state.currentTaskIndex } w

/-- The part of `saveAnnotation` that runs when the request is answered:
`name` and `absoluteFrame` are the values computed before the request,
`state.currentTaskIndex` is read again. -/
def saveAnnotationFinish (request : AnnotationData) (response : SaveResponse) (w : World) :
    World :=
  match response with
  | .rejected message => showToast ("Save failed: " ++ message) w
  | .json ok resultMessage =>
    if ok then
      let message := "Success: " ++ request.name ++ " @ Frame " ++ jsString request.absoluteFrame
      if w.state.currentTaskIndex ≠ -1 then
        let message1 := message ++ " (Task " ++ toString (w.state.currentTaskIndex + 1) ++ ")"
        let w1 := { w with state := { w.state with
          existingAnnotations := mapSet w.state.existingAnnotations (some w.state.currentTaskIndex)
            { frame := request.absoluteFrame, name := request.name } } }
        match renderNameList (renderTaskList w1) with
        | .done w2 => showToast message1 w2
        | .threw error w2 => showToast ("Save failed: " ++ error) w2
      else showToast message w
    else
      let error := if truthy resultMessage then resultMessage.getD "" else "Unknown error"
      showToast ("Save failed: " ++ error) w

/-! ## Navigation -/

/-- `moveFrame(direction)`. -/
def moveFrame (direction : Int) (w : World) : Outcome :=
  let frameIndex := mathMax (some 0)
    (mathMin (some 999) (jsAdd w.state.currentFrameIndex (some direction)))
  let w1 := { w with state := { w.state with currentFrameIndex := frameIndex } }
  (updateView w1).andThen (fun w2 =>
    .done (preloadImages w2.state.currentFolderIndex w2.state.currentFrameIndex direction w2))

/-- `startFrameMovement(direction)`. -/
def startFrameMovement (direction : Int) (w : World) : Outcome :=
  if w.keyboard.frameInterval.isSome then .done w
  else
    let w1 := { w with keyboard := { w.keyboard with currentDirection := direction } }
    (moveFrame direction w1).andThen (fun w2 =>
      .done { w2 with keyboard := { w2.keyboard with frameInterval := some direction } })

/-- One firing of the interval set up by `startFrameMovement`. -/
def intervalTick (w : World) : Outcome :=
  match w.keyboard.frameInterval with
  | some direction => moveFrame direction w
  | none => .done w

/-- `stopFrameMovement()`. -/
def stopFrameMovement (w : World) : World :=
  if w.keyboard.frameInterval.isSome then
    { w with keyboard := { w.keyboard with frameInterval := none, currentDirection := 0 } }
  else w

/-- The `input` listener of the folder slider; a range input reports an
integer. -/
def folderSliderInput (value : Int) (w : World) : Outcome :=
  updateView { w with state := { w.state with currentFolderIndex := value } }

/-- The `input` listener of the frame slider; a range input reports an
integer. -/
def frameSliderInput (value : Int) (w : World) : Outcome :=
  updateView { w with state := { w.state with currentFrameIndex := some value } }

/-- The `change` listener of both sliders. -/
def sliderChange (w : World) : World :=
  preloadImages w.state.currentFolderIndex w.state.currentFrameIndex 0 w

/-- The click listener installed by `setupFolderNavButton(button, folderChange)`. -/
def folderNavClick (folderChange : Int) (w : World) : Outcome :=
  let maxFolder : Int := (w.state.folders.length : Int) - 1
  let folderIndex := max 0 (min maxFolder (w.state.currentFolderIndex + folderChange))
  let w1 := { w with state := { w.state with currentFolderIndex := folderIndex } }
  (updateView w1).andThen (fun w2 =>
    .done (preloadImages w2.state.currentFolderIndex w2.state.currentFrameIndex 0 w2))

/-- The click listener installed by `setupFrameNavButton(button, frameChange)`. -/
def frameNavClick (frameChange : Int) (w : World) : Outcome :=
  let frameIndex := mathMax (some 0)
    (mathMin (some 999) (jsAdd w.state.currentFrameIndex (some frameChange)))
  let w1 := { w with state := { w.state with currentFrameIndex := frameIndex } }
  (updateView w1).andThen (fun w2 =>
    let direction : Int := if frameChange > 0 then 1 else if frameChange < 0 then -1 else 0
    .done (preloadImages w2.state.currentFolderIndex w2.state.currentFrameIndex direction w2))

/-! ## Vocabulary of the properties -/

/-- The absolute frame `f` lies inside the range `[s, e]` that the folder name
`<s>_<e>` parses to. -/
def folderContains (folderName : String) (f : Int) : Prop :=
  match folderStart folderName, folderEnd folderName with
  | some s, some e => s ≤ f ∧ f ≤ e
  | _, _ => False

/-- The range test of the two search loops, `f >= start && f <= end`. -/
def inRange (f : JSNum) (folderName : String) : Bool :=
  jsGe f (folderStart folderName) && jsLe f (folderEnd folderName)

theorem folderContains_iff (folderName : String) (f : Int) :
    folderContains folderName f ↔ inRange (some f) folderName = true := by
  unfold folderContains inRange jsGe jsLe
  cases folderStart folderName <;> cases folderEnd folderName <;> simp

instance (folderName : String) (f : Int) : Decidable (folderContains folderName f) :=
  decidable_of_iff _ (folderContains_iff folderName f).symm

/-- The folder at index `i` is the first of the list whose range contains `f`. -/
def firstContaining (folders : List String) (f : Int) (i : Nat) : Prop :=
  (∃ name, folders[i]? = some name ∧ folderContains name f) ∧
    ∀ j name, j < i → folders[j]? = some name → ¬ folderContains name f

/-- No folder of the list has a range that contains `f`. -/
def inNoRange (folders : List String) (f : Int) : Prop :=
  ∀ name ∈ folders, ¬ folderContains name f

instance (folders : List String) (f : Int) : Decidable (inNoRange folders f) :=
  inferInstanceAs (Decidable (∀ name ∈ folders, ¬ folderContains name f))

/-- The position invariant of the data model. -/
def positionValid (s : State) : Prop :=
  0 ≤ s.currentFolderIndex ∧ s.currentFolderIndex < (s.folders.length : Int) ∧
    ∃ offset : Int, s.currentFrameIndex = some offset ∧ 0 ≤ offset ∧ offset ≤ 999

/-- The state after the two clamping assignments of `updateView`. -/
def clampPosition (s : State) : State :=
  { s with
    currentFolderIndex := max 0 (min ((s.folders.length : Int) - 1) s.currentFolderIndex),
    currentFrameIndex := mathMax (some 0) (mathMin (some 999) s.currentFrameIndex) }

/-- The world with the position replaced, as by the two assignments to
`state.currentFolderIndex` and `state.currentFrameIndex`. -/
def withPosition (folderIndex : Int) (frameIndex : JSNum) (w : World) : World :=
  { w with state := { w.state with
    currentFolderIndex := folderIndex, currentFrameIndex := frameIndex } }

/-- The pair of calls that ends every navigation: `updateView()` followed by
`preloadImages(state.currentFolderIndex, state.currentFrameIndex, direction)`. -/
def refresh (direction : Int) (w : World) : World :=
  preloadImages (updateView w).world.state.currentFolderIndex
    (updateView w).world.state.currentFrameIndex direction (updateView w).world

/-- The state `updateView` leaves: clamped when there is data to show. -/
def viewState (s : State) : State :=
  if !(!truthy s.currentVideo || s.folders.length == 0) then clampPosition s else s

/-- A video is selected and it has folders: the guard of `updateView` and of
`preloadImages` lets the call through. -/
def hasData (s : State) : Bool :=
  !(!truthy s.currentVideo || s.folders.length == 0)

/-- The frame `selectTask` navigates to: the frame of the confirmed annotation
of the task if there is one, the nominal frame of the task otherwise. -/
def targetFrame (s : State) (taskIndex : Int) (task : Task) : JSNum :=
  match mapGet s.existingAnnotations (some taskIndex) with
  | some ann => ann.frame
  | none => some task.frame

/-- The world with the selected task replaced, as by the assignment to
`state.currentTaskIndex`. -/
def withTask (taskIndex : Int) (w : World) : World :=
  { w with state := { w.state with currentTaskIndex := taskIndex } }

/-- The message `goToAbsoluteFrame` passes to `showToast` when the frame is
not found. -/
def notFoundMessage (absoluteFrame : JSNum) : String :=
  "Error: Frame " ++ jsString absoluteFrame ++ " is outside any known folder range."

/-! ## Sample worlds -/

/-- A loaded video `match1` with the folders `0_999` and `1000_1999`, no tasks
and the names Alice and Bob, at position `(0, 0)`. -/
def twoFolderWorld : World :=
  { initialWorld with state := { initialWorld.state with
    currentVideo := some "match1", folders := ["0_999", "1000_1999"],
    names := ["Alice", "Bob"] } }

/-- A loaded video whose only folder, `0_1999`, spans 2000 frames. -/
def wideFolderWorld : World :=
  { initialWorld with state := { initialWorld.state with
    currentVideo := some "match1", folders := ["0_1999"] } }

/-- The data of a first video: two folders, no task. -/
def firstVideoData : VideoData :=
  { folders := some ["0_999", "1000_1999"], tasks := none, names := some ["Alice"],
    existing_annotations := none }

/-- The data of a second video: one folder, and a first task whose frame 5000
is outside every range. -/
def secondVideoData : VideoData :=
  { folders := some ["0_999"], tasks := some [{ name := "Bob", frame := 5000 }],
    names := some ["Bob"], existing_annotations := none }

/-- The page after the first video has loaded. -/
def afterFirstLoad : World :=
  loadVideoData "match1" (.ok firstVideoData) initialWorld

/-- Then one click on the folder-step button `+1`. -/
def afterFolderStep : World :=
  (folderNavClick 1 afterFirstLoad).world

/-- Then the second video is selected and its data arrives. -/
def afterSecondLoad : World :=
  loadVideoData "match2" (.ok secondVideoData) afterFolderStep

/-- A loaded video with the folder `0_999` and the single task Bob at frame
50, nothing annotated yet, the task not yet selected. -/
def bobWorld : World :=
  { initialWorld with state := { initialWorld.state with
    currentVideo := some "match1", folders := ["0_999"],
    tasks := [{ name := "Bob", frame := 50 }], names := ["Alice", "Bob"] } }

/-- The wide folder sample with the single task Bob at frame 1500. -/
def wideTaskWorld : World :=
  { wideFolderWorld with state := { wideFolderWorld.state with
    tasks := [{ name := "Bob", frame := 1500 }] } }

/-- A loaded video with the folder `5000_5999`; task 0 is selected and carries
the confirmed annotation `{frame: 5025, name: "Alice"}`. -/
def aliceWorld : World :=
  { initialWorld with state := { initialWorld.state with
    currentVideo := some "match1", folders := ["5000_5999"],
    tasks := [{ name := "Alice", frame := 5025 }], names := ["Alice", "Bob"],
    currentTaskIndex := 0,
    existingAnnotations := [(some 0, { frame := some 5025, name := "Alice" })] } }

/-- A cache of 101 distinct image URLs, in insertion order. -/
def sampleUrls : List String :=
  (List.range 101).map (fun k => toString k ++ ".jpg")

/-- The event sequence of a short scrub to the right: the right arrow goes
down (`startFrameMovement(1)`), the interval fires twice, the key is released
(`stopFrameMovement()`). -/
def scrubRight (w : World) : World :=
  stopFrameMovement (intervalTick (intervalTick (startFrameMovement 1 w).world).world).world

/-- A loaded video with the folder `0_999` and two tasks, nothing annotated. -/
def twoTaskWorld : World :=
  { initialWorld with state := { initialWorld.state with
    currentVideo := some "match1", folders := ["0_999"],
    tasks := [{ name := "Bob", frame := 50 }, { name := "Alice", frame := 60 }],
    names := ["Alice", "Bob"] } }

/-- The request sent by `saveAnnotation("Bob")` with task 0 selected at frame
50 of `match1`. -/
def staleRequest : AnnotationData :=
  { video := some "match1", folder := "0_999", imageFile := "000050.jpg",
    absoluteFrame := some 50, name := "Bob", taskIndex := 0 }

/-- The page while that request is under way: task 0 of `twoTaskWorld` is
selected. -/
def whileSaving : World :=
  (selectTask 0 twoTaskWorld).world

/-- The user selects task 1 before the response arrives. -/
def otherTaskSelected : World :=
  (selectTask 1 whileSaving).world

/-- The user switches to the video `match2` and its data arrives before the
response does. -/
def otherVideoLoaded : World :=
  loadVideoData "match2"
    (.ok { folders := some ["0_999"], tasks := some [{ name := "Carol", frame := 7 }],
           names := some ["Carol"], existing_annotations := none })
    whileSaving

/-- The offsets of the prefetch window for a direction `d`: `i` in `[-b, a]`
with `i != 0`, where `(a, b)` is `(15, 5)` for `d > 0`, `(5, 15)` for `d < 0`
and `(10, 10)` for `d = 0`. -/
def inWindow (direction : Int) (i : Int) : Prop :=
  i ≠ 0 ∧
    (if direction > 0 then -5 ≤ i ∧ i ≤ 15
     else if direction < 0 then -15 ≤ i ∧ i ≤ 5
     else -10 ≤ i ∧ i ≤ 10)

/-- The image URL of the absolute frame `t`: the file of offset `t - s` in the
first folder whose range `[s, e]` contains `t`. -/
def frameUrl (video : Option String) (folders : List String) (t : Int) (url : String) : Prop :=
  ∃ (j : Nat) (name : String) (s : Int),
    firstContaining folders t j ∧ folders[j]? = some name ∧ folderStart name = some s ∧
      url = imagePath video name (some (t - s))

/-- The URL that one round of the prefetch loop looks up in the cache, if the
round gets that far. -/
def stepUrl (video : Option String) (folders : List String) (centerAbsoluteFrame : JSNum)
    (i : Int) : Option String :=
  if i = 0 then none
  else if truthy (some (findTargetFolder (jsAdd centerAbsoluteFrame (some i)) folders).1) then
    some (imagePath video (findTargetFolder (jsAdd centerAbsoluteFrame (some i)) folders).1
      (jsSub (jsAdd centerAbsoluteFrame (some i))
        (findTargetFolder (jsAdd centerAbsoluteFrame (some i)) folders).2))
  else none

/-- Reads a run of decimal digits back as a number. -/
def decodeDigits (acc : Nat) (cs : List Char) : Nat :=
  cs.foldl (fun a c => a * 10 + (c.toNat - 48)) acc

/-- The character is one of `0` to `9`. -/
def isDecimal (c : Char) : Prop := 48 ≤ c.toNat ∧ c.toNat ≤ 57

/-- Reads a zero padded file name stem back as an integer. -/
def decodePadded (cs : List Char) : Int :=
  match cs.dropWhile (fun c => c == '0') with
  | '-' :: ds => -(decodeDigits 0 ds : Int)
  | ds => (decodeDigits 0 ds : Int)

/-- A loaded video with the two sample folders whose cache already holds the
URLs of the frames 1 and 2. -/
def warmWorld : World :=
  { twoFolderWorld with state := { twoFolderWorld.state with
    imageCache := ["/static/frames/match1/0_999/000001.jpg",
                   "/static/frames/match1/0_999/000002.jpg"] } }

/-- The image cache as the loop of
`preloadImages(centerFolderIdx, centerFrameIdx, direction)` leaves it, that is
the value of `state.imageCache` when the cleanup step starts, for a call that
gets past its guards. -/
def cacheAtCleanup (centerFolderIdx : Int) (centerFrameIdx : JSNum) (direction : Int)
    (w : World) : List String :=
  match arrayAt w.state.folders centerFolderIdx with
  | some currentFolderName =>
    (preloadOffsets (preloadCounts direction).1 (preloadCounts direction).2).foldl
      (preloadStep w.state.currentVideo w.state.folders
        (jsAdd (folderStart currentFolderName) centerFrameIdx))
      w.state.imageCache
  | none => w.state.imageCache

/-- A loaded video with the folders `0_1` and `1000_1999` whose cache holds the
100 URLs of the frames 1000 to 1099, in that order. -/
def fullCacheWorld : World :=
  { initialWorld with state := { initialWorld.state with
    currentVideo := some "match1", folders := ["0_1", "1000_1999"],
    imageCache := (List.range 100).map
      (fun (n : Nat) => imagePath (some "match1") "1000_1999" (some (n : Int))) } }

/-! ## Basic facts -/

theorem arrayAt_natCast {α : Type} (xs : List α) (i : Nat) : arrayAt xs (i : Int) = xs[i]? := by
  simp [arrayAt]

theorem arrayAt_clamped {α : Type} (xs : List α) (k : Int) (h : xs ≠ []) :
    ∃ x, arrayAt xs (max 0 (min ((xs.length : Int) - 1) k)) = some x := by
  have hlen : 0 < xs.length := List.length_pos.mpr h
  have h0 : (0 : Int) ≤ max 0 (min ((xs.length : Int) - 1) k) := le_max_left _ _
  have h1 : (max 0 (min ((xs.length : Int) - 1) k)).toNat < xs.length := by omega
  refine ⟨xs[(max 0 (min ((xs.length : Int) - 1) k)).toNat], ?_⟩
  simp [arrayAt, h0, h1]

theorem folderStart_empty : folderStart "" = none := by decide

theorem truthy_of_folderStart (name : String) (s : Int) (h : folderStart name = some s) :
    truthy (some name) = true := by
  by_cases hn : name = ""
  · subst hn
    rw [folderStart_empty] at h
    cases h
  · simp [truthy, hn]

theorem findFolderIndex_none (f : Int) (folders : List String) (k : Nat)
    (h : inNoRange folders f) : findFolderIndex (some f) folders k = -1 := by
  induction folders generalizing k with
  | nil => rfl
  | cons name rest ih =>
    have hname : inRange (some f) name = false := by
      have := h name (List.mem_cons_self _ _)
      rw [folderContains_iff] at this
      simpa using this
    unfold findFolderIndex
    unfold inRange at hname
    simp only [hname, Bool.false_eq_true, if_false]
    exact ih (k + 1) (fun n hn => h n (List.mem_cons_of_mem _ hn))

theorem findFolderIndex_first (f : Int) (folders : List String) (i k : Nat)
    (h : firstContaining folders f i) : findFolderIndex (some f) folders k = ((k + i : Nat) : Int) := by
  induction folders generalizing i k with
  | nil =>
    obtain ⟨⟨name, hname, _⟩, _⟩ := h
    simp at hname
  | cons name rest ih =>
    obtain ⟨⟨n, hn, hc⟩, hfirst⟩ := h
    unfold findFolderIndex
    cases i with
    | zero =>
      simp only [List.getElem?_cons_zero, Option.some.injEq] at hn
      subst hn
      have := (folderContains_iff name f).mp hc
      unfold inRange at this
      simp [this]
    | succ i =>
      have hnot : inRange (some f) name = false := by
        have := hfirst 0 name (Nat.succ_pos i) (by simp)
        rw [folderContains_iff] at this
        simpa using this
      unfold inRange at hnot
      simp only [hnot, Bool.false_eq_true, if_false]
      rw [ih i (k + 1)]
      · congr 1; omega
      · refine ⟨⟨n, by simpa using hn, hc⟩, ?_⟩
        intro j m hj hm
        exact hfirst (j + 1) m (by omega) (by simpa using hm)

theorem preloadImages_eq (centerFolderIdx : Int) (centerFrameIdx : JSNum) (direction : Int)
    (w : World) :
    ∃ cache, preloadImages centerFolderIdx centerFrameIdx direction w =
      { w with state := { w.state with imageCache := cache } } := by
  unfold preloadImages
  split
  · exact ⟨w.state.imageCache, rfl⟩
  · split
    · exact ⟨w.state.imageCache, rfl⟩
    · split
      · exact ⟨w.state.imageCache, rfl⟩
      · exact ⟨_, rfl⟩

theorem folders_of_preloadImages (a : Int) (b : JSNum) (c : Int) (w : World) :
    (preloadImages a b c w).state.folders = w.state.folders ∧
    (preloadImages a b c w).state.currentFolderIndex = w.state.currentFolderIndex ∧
    (preloadImages a b c w).state.currentFrameIndex = w.state.currentFrameIndex ∧
    (preloadImages a b c w).state.currentTaskIndex = w.state.currentTaskIndex ∧
    (preloadImages a b c w).state.existingAnnotations = w.state.existingAnnotations ∧
    (preloadImages a b c w).dom = w.dom := by
  obtain ⟨cache, h⟩ := preloadImages_eq a b c w
  rw [h]
  exact ⟨rfl, rfl, rfl, rfl, rfl, rfl⟩

theorem renderNameList_state (w : World) : (renderNameList w).world.state = w.state := by
  unfold renderNameList
  simp only
  split
  · rfl
  · split <;> rfl

theorem renderNameList_toasts (w : World) :
    (renderNameList w).world.dom.toasts = w.dom.toasts := by
  unfold renderNameList
  simp only
  split
  · rfl
  · split <;> rfl

theorem renderNameList_done (w : World) (x : JSNum)
    (h : getCurrentAbsoluteFrame w.state = .ok x) : (renderNameList w).hasThrown = false := by
  unfold renderNameList
  simp only
  split
  · rfl
  · rw [h]; rfl

theorem getCurrentAbsoluteFrame_of_arrayAt (s : State) (name : String)
    (h : arrayAt s.folders s.currentFolderIndex = some name) :
    getCurrentAbsoluteFrame s = .ok (jsAdd (folderStart name) s.currentFrameIndex) := by
  unfold getCurrentAbsoluteFrame
  split
  · rename_i h0
    have : s.folders = [] := by simpa using h0
    simp [this, arrayAt] at h
  · rw [h]

theorem updateView_state (w : World) :
    (updateView w).world.state = viewState w.state := by
  unfold updateView viewState
  split
  · rename_i h; simp [h, Outcome.world]
  · rename_i h
    simp only [h, Bool.not_false, if_true]
    split
    · rfl
    · split
      · rfl
      · rw [renderNameList_state]; rfl

theorem updateView_toasts (w : World) : (updateView w).world.dom.toasts = w.dom.toasts := by
  unfold updateView
  split
  · rfl
  · simp only
    split
    · rfl
    · split
      · rfl
      · rw [renderNameList_toasts]

theorem updateView_hasThrown (w : World) : (updateView w).hasThrown = false := by
  unfold updateView
  split
  · rfl
  · simp only
    split
    · rfl
    · split
      · rfl
      · rename_i name hname _
        exact renderNameList_done _ _ (getCurrentAbsoluteFrame_of_arrayAt _ name hname)

theorem updateView_eq_done (w : World) : updateView w = .done (updateView w).world := by
  have h := updateView_hasThrown w
  cases hu : updateView w with
  | done w1 => rfl
  | threw e w1 => rw [hu] at h; cases h

theorem folders_ne_nil_of_getElem? (folders : List String) (i : Nat) (name : String)
    (h : folders[i]? = some name) : (folders.length == 0) = false := by
  cases folders with
  | nil => simp at h
  | cons a rest => simp

@[simp] theorem world_done (w : World) : (Outcome.done w).world = w := rfl

@[simp] theorem hasThrown_done (w : World) : (Outcome.done w).hasThrown = false := rfl

theorem updateView_andThen (w : World) (next : World → Outcome) :
    (updateView w).andThen next = next (updateView w).world := by
  rw [updateView_eq_done w]
  rfl

theorem refresh_spec (direction : Int) (w : World) :
    ∃ cache, (refresh direction w).state = { viewState w.state with imageCache := cache } ∧
      (refresh direction w).dom = (updateView w).world.dom ∧
      (refresh direction w).keyboard = (updateView w).world.keyboard := by
  obtain ⟨cache, h⟩ := preloadImages_eq (updateView w).world.state.currentFolderIndex
    (updateView w).world.state.currentFrameIndex direction (updateView w).world
  refine ⟨cache, ?_, ?_, ?_⟩
  · unfold refresh; rw [h, ← updateView_state]
  · unfold refresh; rw [h]
  · unfold refresh; rw [h]

theorem goToAbsoluteFrame_found (w : World) (f : Int) (i : Nat) (name : String)
    (hfind : findFolderIndex (some f) w.state.folders 0 = (i : Int))
    (hname : w.state.folders[i]? = some name) :
    goToAbsoluteFrame (some f) w =
      .done (refresh 0 (withPosition (i : Int) (jsSub (some f) (folderStart name)) w)) := by
  unfold goToAbsoluteFrame
  have hne : ((i : Int) ≠ -1) := by omega
  simp only [folders_ne_nil_of_getElem? _ i name hname, Bool.false_eq_true, if_false, hfind,
    ne_eq, hne, not_false_eq_true, if_true, arrayAt_natCast, hname]
  rw [updateView_andThen]
  rfl

theorem goToAbsoluteFrame_notFound (w : World) (f : Int) (h : inNoRange w.state.folders f) :
    goToAbsoluteFrame (some f) w =
      .done (if w.state.folders.length == 0 then w else showToast (notFoundMessage (some f)) w) := by
  unfold goToAbsoluteFrame
  split
  · rfl
  · simp [findFolderIndex_none f _ 0 h, notFoundMessage]

theorem start_le_of_contains (name : String) (f s : Int) (hs : folderStart name = some s)
    (hc : folderContains name f) : s ≤ f := by
  unfold folderContains at hc
  rw [hs] at hc
  cases he : folderEnd name with
  | none => rw [he] at hc; exact hc.elim
  | some e => rw [he] at hc; exact hc.1

/-- Where `goToAbsoluteFrame` lands when a video is loaded and the frame is in
a range: at the first folder that contains it, the offset cut off at 999. -/
theorem goToAbsoluteFrame_position (w : World) (f : Int) (i : Nat) (name : String) (s : Int)
    (hloaded : truthy w.state.currentVideo = true)
    (hfirst : firstContaining w.state.folders f i)
    (hname : w.state.folders[i]? = some name) (hs : folderStart name = some s) :
    (goToAbsoluteFrame (some f) w).hasThrown = false ∧
    (goToAbsoluteFrame (some f) w).world.state.currentFolderIndex = (i : Int) ∧
    (goToAbsoluteFrame (some f) w).world.state.currentFrameIndex = some (min 999 (f - s)) ∧
    (goToAbsoluteFrame (some f) w).world.state.folders = w.state.folders ∧
    getCurrentAbsoluteFrame (goToAbsoluteFrame (some f) w).world.state =
      .ok (some (s + min 999 (f - s))) := by
  have hfind := findFolderIndex_first f w.state.folders i 0 hfirst
  simp only [Nat.zero_add] at hfind
  have hsf : s ≤ f := by
    obtain ⟨⟨n, hn, hc⟩, _⟩ := hfirst
    rw [hname] at hn
    cases hn
    exact start_le_of_contains name f s hs hc
  have hlen : i < w.state.folders.length := by
    rcases List.getElem?_eq_some.mp hname with ⟨h, _⟩
    exact h
  have hnz := folders_ne_nil_of_getElem? _ i name hname
  rw [goToAbsoluteFrame_found w f i name hfind hname]
  obtain ⟨cache, hst, _, _⟩ :=
    refresh_spec 0 (withPosition (i : Int) (jsSub (some f) (folderStart name)) w)
  have hidx : max 0 (min ((w.state.folders.length : Int) - 1) (i : Int)) = (i : Int) := by omega
  have hoff : max 0 (min 999 (f - s)) = min 999 (f - s) := by omega
  have hv : viewState (withPosition (i : Int) (jsSub (some f) (folderStart name)) w).state =
      { w.state with currentFolderIndex := (i : Int),
                     currentFrameIndex := some (min 999 (f - s)) } := by
    simp only [viewState, withPosition, hloaded, hnz, Bool.not_true, Bool.or_false,
      Bool.not_false, if_true, clampPosition, hs, jsSub, mathMax, mathMin, hidx, hoff]
  rw [hv] at hst
  simp only [world_done, hasThrown_done, true_and]
  generalize refresh 0 (withPosition (i : Int) (jsSub (some f) (folderStart name)) w) = r at hst
  refine ⟨by rw [hst], by rw [hst], by rw [hst], ?_⟩
  rw [getCurrentAbsoluteFrame_of_arrayAt _ name]
  · rw [hst, hs]; rfl
  · rw [hst]
    simp only [arrayAt_natCast]
    exact hname

/-! ## C1: round trip of the frame locator -/

/-- C1 (as amended): with a video loaded, for every folder list and every
absolute frame `f` whose first containing range `[s, e]` sits at index `i`,
and whose offset `f - s` is at most 999, `goToAbsoluteFrame(f)` completes
without throwing, the position afterwards is `(i, f - s)` and
`getCurrentAbsoluteFrame()` is `f` again. -/
theorem goToAbsoluteFrame_round_trip (w : World) (f : Int) (i : Nat) (name : String) (s : Int)
    (hloaded : truthy w.state.currentVideo = true)
    (hfirst : firstContaining w.state.folders f i)
    (hname : w.state.folders[i]? = some name) (hs : folderStart name = some s)
    (hoff : f - s ≤ 999) :
    (goToAbsoluteFrame (some f) w).hasThrown = false ∧
    (goToAbsoluteFrame (some f) w).world.state.currentFolderIndex = (i : Int) ∧
    (goToAbsoluteFrame (some f) w).world.state.currentFrameIndex = some (f - s) ∧
    getCurrentAbsoluteFrame (goToAbsoluteFrame (some f) w).world.state = .ok (some f) := by
  obtain ⟨h1, h2, h3, _, h5⟩ := goToAbsoluteFrame_position w f i name s hloaded hfirst hname hs
  have hmin : min 999 (f - s) = f - s := by omega
  rw [hmin] at h3 h5
  refine ⟨h1, h2, h3, ?_⟩
  rw [h5]
  congr 2
  omega

/-- In the two folder sample, frame 1500 is first contained in the folder at
index 1. -/
theorem firstContaining_twoFolder : firstContaining twoFolderWorld.state.folders 1500 1 := by
  refine ⟨⟨"1000_1999", by decide, by decide⟩, ?_⟩
  intro j name hj hn
  have hj0 : j = 0 := by omega
  subst hj0
  have : name = "0_999" := by
    have h0 : twoFolderWorld.state.folders[0]? = some "0_999" := by decide
    rw [h0] at hn
    exact (Option.some.inj hn).symm
  subst this
  decide

/-- C1, witness: folders `0_999`, `1000_1999`; frame 1500 lands on `(1, 500)`
and reads back as 1500. -/
theorem goToAbsoluteFrame_round_trip_witness :
    (goToAbsoluteFrame (some 1500) twoFolderWorld).hasThrown = false ∧
    (goToAbsoluteFrame (some 1500) twoFolderWorld).world.state.currentFolderIndex = 1 ∧
    (goToAbsoluteFrame (some 1500) twoFolderWorld).world.state.currentFrameIndex = some 500 ∧
    getCurrentAbsoluteFrame (goToAbsoluteFrame (some 1500) twoFolderWorld).world.state =
      .ok (some 1500) :=
  goToAbsoluteFrame_round_trip twoFolderWorld 1500 1 "1000_1999" 1000 (by decide)
    firstContaining_twoFolder (by decide) (by decide) (by decide)

/-- C1, counterexample to the claim as stated: with the single folder
`0_1999`, frame 1500 lies inside the range `[0, 1999]`, yet after
`goToAbsoluteFrame(1500)` the offset is 999, not `1500 - 0`, and the current
absolute frame is 999, not 1500. -/
theorem goToAbsoluteFrame_round_trip_counterexample :
    truthy wideFolderWorld.state.currentVideo = true ∧
    wideFolderWorld.state.folders[0]? = some "0_1999" ∧
    folderStart "0_1999" = some 0 ∧ folderEnd "0_1999" = some 1999 ∧
    folderContains "0_1999" 1500 ∧
    (goToAbsoluteFrame (some 1500) wideFolderWorld).world.state.currentFolderIndex = 0 ∧
    (goToAbsoluteFrame (some 1500) wideFolderWorld).world.state.currentFrameIndex = some 999 ∧
    (goToAbsoluteFrame (some 1500) wideFolderWorld).world.state.currentFrameIndex ≠
      some (1500 - 0) ∧
    getCurrentAbsoluteFrame (goToAbsoluteFrame (some 1500) wideFolderWorld).world.state =
      .ok (some 999) := by
  refine ⟨by decide, by decide, by decide, by decide, by decide, by decide, by decide,
    by decide, by rfl⟩

/-! ## C2, C3: a frame outside every range -/

theorem findFolderIndex_found (f : Int) (folders : List String) (k : Nat)
    (h : ¬ inNoRange folders f) :
    ∃ i name, folders[i]? = some name ∧
      findFolderIndex (some f) folders k = ((k + i : Nat) : Int) := by
  induction folders generalizing k with
  | nil => exact absurd (fun _ hn => by simp at hn) h
  | cons name rest ih =>
    by_cases hc : folderContains name f
    · refine ⟨0, name, by simp, ?_⟩
      have := (folderContains_iff name f).mp hc
      unfold inRange at this
      unfold findFolderIndex
      simp [this]
    · have hrest : ¬ inNoRange rest f := by
        intro hr
        apply h
        intro n hn
        rcases List.mem_cons.mp hn with rfl | hm
        · exact hc
        · exact hr n hm
      obtain ⟨i, n, hn, hfind⟩ := ih (k + 1) hrest
      refine ⟨i + 1, n, by simpa using hn, ?_⟩
      have hnot : inRange (some f) name = false := by
        rw [folderContains_iff] at hc
        simpa using hc
      unfold inRange at hnot
      unfold findFolderIndex
      simp only [hnot, Bool.false_eq_true, if_false]
      rw [hfind]
      congr 1
      omega

theorem goToAbsoluteFrame_toasts_found (w : World) (f : Int)
    (h : ¬ inNoRange w.state.folders f) :
    (goToAbsoluteFrame (some f) w).world.dom.toasts = w.dom.toasts := by
  obtain ⟨i, name, hname, hfind⟩ := findFolderIndex_found f w.state.folders 0 h
  simp only [Nat.zero_add] at hfind
  rw [goToAbsoluteFrame_found w f i name hfind hname]
  obtain ⟨_, _, hdom, _⟩ := refresh_spec 0 (withPosition (i : Int) (jsSub (some f) (folderStart name)) w)
  rw [world_done, hdom, updateView_toasts]
  rfl

/-- C2: for every folder list and every absolute frame `f` that no folder
range contains, `goToAbsoluteFrame(f)` completes without throwing and leaves
`currentFolderIndex` and `currentFrameIndex` (indeed the whole `state`
object) as they were. -/
theorem goToAbsoluteFrame_notFound_unchanged (w : World) (f : Int)
    (h : inNoRange w.state.folders f) :
    (goToAbsoluteFrame (some f) w).hasThrown = false ∧
    (goToAbsoluteFrame (some f) w).world.state.currentFolderIndex = w.state.currentFolderIndex ∧
    (goToAbsoluteFrame (some f) w).world.state.currentFrameIndex = w.state.currentFrameIndex ∧
    (goToAbsoluteFrame (some f) w).world.state = w.state := by
  rw [goToAbsoluteFrame_notFound w f h]
  split <;> exact ⟨rfl, rfl, rfl, rfl⟩

/-- C2, witness: frame 5000 with the folders `0_999`, `1000_1999`. -/
theorem goToAbsoluteFrame_notFound_unchanged_witness :
    inNoRange twoFolderWorld.state.folders 5000 ∧
    (goToAbsoluteFrame (some 5000) twoFolderWorld).hasThrown = false ∧
    (goToAbsoluteFrame (some 5000) twoFolderWorld).world.state.currentFolderIndex =
      twoFolderWorld.state.currentFolderIndex ∧
    (goToAbsoluteFrame (some 5000) twoFolderWorld).world.state.currentFrameIndex =
      twoFolderWorld.state.currentFrameIndex ∧
    (goToAbsoluteFrame (some 5000) twoFolderWorld).world.state = twoFolderWorld.state :=
  ⟨by decide, goToAbsoluteFrame_notFound_unchanged twoFolderWorld 5000 (by decide)⟩

/-- C3 (as amended): `goToAbsoluteFrame(f)` emits the error notification
exactly when the folder list is not empty and no range contains `f`; with an
empty folder list, or when some range contains `f`, it emits nothing. -/
theorem goToAbsoluteFrame_toast_iff (w : World) (f : Int) :
    ((goToAbsoluteFrame (some f) w).world.dom.toasts =
        w.dom.toasts ++ [notFoundMessage (some f)] ↔
      (w.state.folders ≠ [] ∧ inNoRange w.state.folders f)) ∧
    ((goToAbsoluteFrame (some f) w).world.dom.toasts = w.dom.toasts ↔
      ¬ (w.state.folders ≠ [] ∧ inNoRange w.state.folders f)) := by
  have hne : ∀ l : List String, l ++ [notFoundMessage (some f)] ≠ l := by
    intro l hl
    have := congrArg List.length hl
    simp at this
  by_cases h : inNoRange w.state.folders f
  · rw [goToAbsoluteFrame_notFound w f h]
    by_cases hnil : w.state.folders = []
    · simp [hnil, h, Ne.symm (hne w.dom.toasts)]
    · have hlen : (w.state.folders.length == 0) = false := by simpa using hnil
      simp [hlen, hnil, h, showToast]
  · rw [goToAbsoluteFrame_toasts_found w f h]
    simp [h, Ne.symm (hne w.dom.toasts)]

/-- C3, counterexample to the claim as stated: with the empty folder list of
the initial state, frame 5 is outside every range and `goToAbsoluteFrame(5)`
emits no notification at all. -/
theorem goToAbsoluteFrame_toast_counterexample :
    initialWorld.state.folders = [] ∧ inNoRange initialWorld.state.folders 5 ∧
    (goToAbsoluteFrame (some 5) initialWorld).world.dom.toasts = [] := by
  refine ⟨by decide, by decide, by decide⟩

/-! ## C4: moves are clamped -/

theorem clamp_idem (x : Int) : max 0 (min 999 (max 0 (min 999 x))) = max 0 (min 999 x) := by
  omega

theorem viewState_frame_clamped (s : State) (x : Int)
    (h : s.currentFrameIndex = some (max 0 (min 999 x))) :
    (viewState s).currentFrameIndex = some (max 0 (min 999 x)) := by
  unfold viewState
  split
  · simp only [clampPosition, h, mathMax, mathMin, clamp_idem]
  · exact h

theorem viewState_folders (s : State) : (viewState s).folders = s.folders := by
  unfold viewState
  split <;> rfl

theorem viewState_folder_clamped (s : State) (k : Int)
    (h : s.currentFolderIndex = max 0 (min ((s.folders.length : Int) - 1) k)) :
    (viewState s).currentFolderIndex = max 0 (min ((s.folders.length : Int) - 1) k) := by
  unfold viewState
  split
  · simp only [clampPosition, h]
    omega
  · exact h

theorem moveFrame_eq (direction : Int) (w : World) :
    moveFrame direction w = .done (refresh direction
      (withPosition w.state.currentFolderIndex
        (mathMax (some 0) (mathMin (some 999) (jsAdd w.state.currentFrameIndex (some direction))))
        w)) := by
  unfold moveFrame
  simp only
  rw [updateView_andThen]
  rfl

theorem frameNavClick_eq (frameChange : Int) (w : World) :
    frameNavClick frameChange w =
      .done (refresh (if frameChange > 0 then 1 else if frameChange < 0 then -1 else 0)
        (withPosition w.state.currentFolderIndex
          (mathMax (some 0)
            (mathMin (some 999) (jsAdd w.state.currentFrameIndex (some frameChange))))
          w)) := by
  unfold frameNavClick
  simp only
  rw [updateView_andThen]
  rfl

theorem folderNavClick_eq (folderChange : Int) (w : World) :
    folderNavClick folderChange w =
      .done (refresh 0
        (withPosition
          (max 0 (min ((w.state.folders.length : Int) - 1)
            (w.state.currentFolderIndex + folderChange)))
          w.state.currentFrameIndex w)) := by
  unfold folderNavClick
  simp only
  rw [updateView_andThen]
  rfl

/-- C4 (as amended): for every state and every integer `delta`, with or
without folders: `moveFrame(delta)` and a frame-step button of change `delta`
both leave the frame offset at `max(0, min(999, o + delta))`, `o` being the
offset before; a folder-step button of change `delta` leaves the folder list
as it is and the folder index at
`max(0, min(folders.length - 1, index + delta))`, which lies inside
`[0, folders.length - 1]` when the folder list is not empty and is 0 when it
is empty. -/
theorem moves_clamped (w : World) (delta : Int) :
    (∀ o : Int, w.state.currentFrameIndex = some o →
      (moveFrame delta w).world.state.currentFrameIndex = some (max 0 (min 999 (o + delta))) ∧
      (frameNavClick delta w).world.state.currentFrameIndex =
        some (max 0 (min 999 (o + delta)))) ∧
    (folderNavClick delta w).world.state.folders = w.state.folders ∧
    (folderNavClick delta w).world.state.currentFolderIndex =
      max 0 (min ((w.state.folders.length : Int) - 1) (w.state.currentFolderIndex + delta)) ∧
    (w.state.folders ≠ [] →
      0 ≤ (folderNavClick delta w).world.state.currentFolderIndex ∧
      (folderNavClick delta w).world.state.currentFolderIndex ≤
        ((folderNavClick delta w).world.state.folders.length : Int) - 1) ∧
    (w.state.folders = [] → (folderNavClick delta w).world.state.currentFolderIndex = 0) := by
  have hfolder : (folderNavClick delta w).world.state.folders = w.state.folders ∧
      (folderNavClick delta w).world.state.currentFolderIndex =
        max 0 (min ((w.state.folders.length : Int) - 1)
          (w.state.currentFolderIndex + delta)) := by
    rw [folderNavClick_eq, world_done]
    obtain ⟨cache, hst, _, _⟩ := refresh_spec 0
      (withPosition (max 0 (min ((w.state.folders.length : Int) - 1)
        (w.state.currentFolderIndex + delta))) w.state.currentFrameIndex w)
    rw [hst]
    have := viewState_folder_clamped
      (withPosition (max 0 (min ((w.state.folders.length : Int) - 1)
        (w.state.currentFolderIndex + delta))) w.state.currentFrameIndex w).state
      (w.state.currentFolderIndex + delta) rfl
    refine ⟨?_, ?_⟩
    · show (viewState _).folders = _
      rw [viewState_folders]
      rfl
    · show (viewState _).currentFolderIndex = _
      rw [this]
      rfl
  refine ⟨?_, hfolder.1, hfolder.2, ?_, ?_⟩
  · intro o hoff
    constructor
    · rw [moveFrame_eq, world_done]
      obtain ⟨cache, hst, _, _⟩ := refresh_spec delta
        (withPosition w.state.currentFolderIndex
          (mathMax (some 0) (mathMin (some 999) (jsAdd w.state.currentFrameIndex (some delta))))
          w)
      rw [hst]
      exact viewState_frame_clamped _ (o + delta)
        (by simp [withPosition, hoff, jsAdd, mathMax, mathMin])
    · rw [frameNavClick_eq, world_done]
      obtain ⟨cache, hst, _, _⟩ := refresh_spec
        (if delta > 0 then 1 else if delta < 0 then -1 else 0)
        (withPosition w.state.currentFolderIndex
          (mathMax (some 0) (mathMin (some 999) (jsAdd w.state.currentFrameIndex (some delta))))
          w)
      rw [hst]
      exact viewState_frame_clamped _ (o + delta)
        (by simp [withPosition, hoff, jsAdd, mathMax, mathMin])
  · intro hne
    have hlen : 0 < w.state.folders.length := List.length_pos.mpr hne
    rw [hfolder.1, hfolder.2]
    constructor
    · exact le_max_left _ _
    · omega
  · intro hnil
    rw [hfolder.2, hnil]
    simp

/-- C4, witness: a frame move of -9999 from offset 5 yields offset 0, on the
two folder sample and on the initial page, which has no folders; a folder
move of -9999 yields index 0 on both. -/
theorem moves_clamped_witness :
    ((moveFrame (-9999) (withPosition 0 (some 5) twoFolderWorld)).world.state.currentFrameIndex =
        some 0 ∧
      (frameNavClick (-9999)
        (withPosition 0 (some 5) twoFolderWorld)).world.state.currentFrameIndex = some 0) ∧
    ((moveFrame (-9999) (withPosition 0 (some 5) initialWorld)).world.state.currentFrameIndex =
        some 0 ∧
      (frameNavClick (-9999)
        (withPosition 0 (some 5) initialWorld)).world.state.currentFrameIndex = some 0) ∧
    (0 ≤ (folderNavClick (-9999)
        (withPosition 0 (some 5) twoFolderWorld)).world.state.currentFolderIndex ∧
      (folderNavClick (-9999)
          (withPosition 0 (some 5) twoFolderWorld)).world.state.currentFolderIndex ≤
        ((folderNavClick (-9999)
          (withPosition 0 (some 5) twoFolderWorld)).world.state.folders.length : Int) - 1) ∧
    (folderNavClick (-9999) initialWorld).world.state.currentFolderIndex = 0 :=
  ⟨(moves_clamped (withPosition 0 (some 5) twoFolderWorld) (-9999)).1 5 (by decide),
    (moves_clamped (withPosition 0 (some 5) initialWorld) (-9999)).1 5 (by decide),
    (moves_clamped (withPosition 0 (some 5) twoFolderWorld) (-9999)).2.2.2.1 (by decide),
    (moves_clamped initialWorld (-9999)).2.2.2.2 (by decide)⟩

/-- C4, counterexample to the claim as stated: in the initial state the folder
list is empty, so `[0, folders.length - 1]` is `[0, -1]`; a folder-step click
of `+1` leaves the folder index 0, which is above `folders.length - 1`. -/
theorem moves_clamped_counterexample :
    (folderNavClick 1 initialWorld).world.state.folders.length = 0 ∧
    (folderNavClick 1 initialWorld).world.state.currentFolderIndex = 0 ∧
    ¬ ((folderNavClick 1 initialWorld).world.state.currentFolderIndex ≤
      ((folderNavClick 1 initialWorld).world.state.folders.length : Int) - 1) := by
  refine ⟨by decide, by decide, by decide⟩

/-! ## C5: the position invariant -/

/-- With data to show and a numeric frame offset, the clamping of `updateView`
establishes the position invariant. -/
theorem positionValid_viewState (s : State) (o : Int) (hdata : hasData s = true)
    (hoff : s.currentFrameIndex = some o) : positionValid (viewState s) := by
  have hd : (!(!truthy s.currentVideo || s.folders.length == 0)) = true := hdata
  have hlen : 0 < s.folders.length := by
    by_contra hcon
    have h0 : s.folders.length = 0 := by omega
    simp [h0] at hd
  unfold viewState
  rw [if_pos hd]
  refine ⟨?_, ?_, max 0 (min 999 o), ?_, ?_, ?_⟩
  · exact le_max_left _ _
  · show max 0 (min ((s.folders.length : Int) - 1) s.currentFolderIndex) < (s.folders.length : Int)
    omega
  · simp [clampPosition, hoff, mathMax, mathMin]
  · exact le_max_left _ _
  · omega

/-- C5, the failing run: the first video loads with two folders, the
folder-step button `+1` moves to folder index 1, then a second video loads
with one folder and a first task whose frame 5000 is outside every range.
The invariant holds before the second load; after it the folder list has one
element and `currentFolderIndex` is still 1, so the invariant is broken, and
the load itself ends in its `catch` block with a `TypeError` from
`getCurrentAbsoluteFrame`. -/
theorem loadVideoData_stale_position :
    positionValid afterFirstLoad.state ∧ positionValid afterFolderStep.state ∧
    afterSecondLoad.state.folders = ["0_999"] ∧
    afterSecondLoad.state.currentFolderIndex = 1 ∧
    afterSecondLoad.state.currentFrameIndex = some 0 ∧
    ¬ positionValid afterSecondLoad.state ∧
    afterSecondLoad.dom.toasts =
      [notFoundMessage (some 5000), "Failed to load video data: " ++ splitOfUndefined] := by
  refine ⟨⟨by decide, by decide, 0, by decide, by decide, by decide⟩,
    ⟨by decide, by decide, 0, by decide, by decide, by decide⟩,
    by decide, by decide, by decide, ?_, by decide⟩
  rintro ⟨_, h, _⟩
  revert h
  decide

/-! ## C6: a save is applied only on confirmed success -/

theorem mapGet_mapSet_self (m : List (JSNum × Annotation)) (key : JSNum) (value : Annotation) :
    mapGet (mapSet m key value) key = some value := by
  induction m with
  | nil => simp [mapSet, mapGet]
  | cons entry rest ih =>
    unfold mapSet
    by_cases h : entry.1 = key
    · simp [h, mapGet]
    · simp [h, mapGet, ih]

theorem mapGet_mapSet_of_ne (m : List (JSNum × Annotation)) (key other : JSNum)
    (value : Annotation) (h : other ≠ key) :
    mapGet (mapSet m key value) other = mapGet m other := by
  induction m with
  | nil => simp [mapSet, mapGet, Ne.symm h]
  | cons entry rest ih =>
    unfold mapSet
    by_cases hk : entry.1 = key
    · have : entry.1 ≠ other := by rw [hk]; exact Ne.symm h
      simp [hk, mapGet, Ne.symm h, this]
    · simp only [hk, if_false]
      unfold mapGet
      rw [ih]

theorem renderTaskList_state (w : World) : (renderTaskList w).state = w.state := by
  unfold renderTaskList
  split <;> rfl

theorem saveAnnotationFinish_failure (request : AnnotationData) (w : World) :
    (∀ message, (saveAnnotationFinish request (.rejected message) w).state = w.state) ∧
    (∀ message, (saveAnnotationFinish request (.json false message) w).state = w.state) := by
  constructor
  · intro message; rfl
  · intro message; rfl

theorem saveAnnotationFinish_success (request : AnnotationData) (w : World)
    (message : Option String) (hsel : w.state.currentTaskIndex ≠ -1) :
    (saveAnnotationFinish request (.json true message) w).state.existingAnnotations =
      mapSet w.state.existingAnnotations (some w.state.currentTaskIndex)
        { frame := request.absoluteFrame, name := request.name } := by
  unfold saveAnnotationFinish
  simp only [if_true, ne_eq, hsel, not_false_eq_true]
  split
  · rename_i w2 hw2
    have h1 := renderNameList_state (renderTaskList { w with state := { w.state with
      existingAnnotations := mapSet w.state.existingAnnotations (some w.state.currentTaskIndex)
        { frame := request.absoluteFrame, name := request.name } } })
    rw [hw2, renderTaskList_state] at h1
    show w2.state.existingAnnotations = _
    rw [world_done] at h1
    rw [h1]
  · rename_i e w2 hw2
    have h1 := renderNameList_state (renderTaskList { w with state := { w.state with
      existingAnnotations := mapSet w.state.existingAnnotations (some w.state.currentTaskIndex)
        { frame := request.absoluteFrame, name := request.name } } })
    rw [hw2, renderTaskList_state] at h1
    show w2.state.existingAnnotations = _
    have h2 : w2.state = _ := h1
    rw [h2]

/-- C6 (as amended): for every state with a loaded video, a selected task `t`
and a current folder, `saveAnnotation(name)` sends a request that carries the
name, the task index `t` and the frame `start frame of the current folder +
current frame offset`.  Whatever the page has become when the answer arrives:
a rejected request or a response that is not a success leaves
`existingAnnotations` as it is then; a success response records exactly
`{frame, name}` as computed before the request, under the task index that is
selected when it arrives, and changes no other entry; it records nothing when
no task is selected at that time.  In particular, when task `t` is still the
selected one, `existingAnnotations.get(t)` is that annotation. -/
theorem saveAnnotation_applied_on_success (w : World) (name : String) (t : Int)
    (folderName : String)
    (hloaded : truthy w.state.currentVideo = true)
    (htask : w.state.currentTaskIndex = t) (hsel : t ≠ -1)
    (hfolder : arrayAt w.state.folders w.state.currentFolderIndex = some folderName) :
    ∃ request, saveAnnotationStart name w = .sent request w ∧
      request.name = name ∧ request.taskIndex = t ∧
      request.absoluteFrame = jsAdd (folderStart folderName) w.state.currentFrameIndex ∧
      ∀ later : World,
        (∀ message,
          ( saveAnnotationFinish request (.rejected message) later).state.existingAnnotations =
            later.state.existingAnnotations) ∧
        (∀ message,
          ( saveAnnotationFinish request (.json false message) later).state.existingAnnotations =
            later.state.existingAnnotations) ∧
        (∀ message, later.state.currentTaskIndex = -1 →
          ( saveAnnotationFinish request (.json true message) later).state.existingAnnotations =
            later.state.existingAnnotations) ∧
        (∀ message, later.state.currentTaskIndex ≠ -1 →
          mapGet ( saveAnnotationFinish request (.json true message)
              later).state.existingAnnotations (some later.state.currentTaskIndex) =
            some { frame := jsAdd (folderStart folderName) w.state.currentFrameIndex,
                   name := name } ∧
          ∀ key, key ≠ some later.state.currentTaskIndex →
            mapGet ( saveAnnotationFinish request (.json true message)
                later).state.existingAnnotations key =
              mapGet later.state.existingAnnotations key) ∧
        (∀ message, later.state.currentTaskIndex = t →
          mapGet ( saveAnnotationFinish request (.json true message)
              later).state.existingAnnotations (some t) =
            some { frame := jsAdd (folderStart folderName) w.state.currentFrameIndex,
                   name := name }) := by
  have hstart : saveAnnotationStart name w =
      .sent { video := w.state.currentVideo, folder := folderName,
              imageFile := padStart (jsString w.state.currentFrameIndex) 6 ++ ".jpg",
              absoluteFrame := jsAdd (folderStart folderName) w.state.currentFrameIndex,
              name := name, taskIndex := w.state.currentTaskIndex } w := by
    unfold saveAnnotationStart
    simp [hloaded, hfolder]
  refine ⟨_, hstart, rfl, htask, rfl, ?_⟩
  intro later
  have hsome : ∀ message, later.state.currentTaskIndex ≠ -1 →
      mapGet ( saveAnnotationFinish
          { video := w.state.currentVideo, folder := folderName,
            imageFile := padStart (jsString w.state.currentFrameIndex) 6 ++ ".jpg",
            absoluteFrame := jsAdd (folderStart folderName) w.state.currentFrameIndex,
            name := name, taskIndex := w.state.currentTaskIndex }
          (.json true message) later).state.existingAnnotations
          (some later.state.currentTaskIndex) =
        some { frame := jsAdd (folderStart folderName) w.state.currentFrameIndex,
               name := name } ∧
      ∀ key, key ≠ some later.state.currentTaskIndex →
        mapGet ( saveAnnotationFinish
            { video := w.state.currentVideo, folder := folderName,
              imageFile := padStart (jsString w.state.currentFrameIndex) 6 ++ ".jpg",
              absoluteFrame := jsAdd (folderStart folderName) w.state.currentFrameIndex,
              name := name, taskIndex := w.state.currentTaskIndex }
            (.json true message) later).state.existingAnnotations key =
          mapGet later.state.existingAnnotations key := by
    intro message hlater
    rw [saveAnnotationFinish_success _ later message hlater]
    exact ⟨mapGet_mapSet_self _ _ _, fun key hkey => mapGet_mapSet_of_ne _ _ _ _ hkey⟩
  refine ⟨fun _ => rfl, fun _ => rfl, ?_, hsome, ?_⟩
  · intro message hnone
    have hno : ¬ (later.state.currentTaskIndex ≠ -1) := by simp [hnone]
    unfold saveAnnotationFinish
    simp only [if_true, hno, if_false]
    rfl
  · intro message hsame
    have hlater : later.state.currentTaskIndex ≠ -1 := by rw [hsame]; exact hsel
    have := (hsome message hlater).1
    rw [hsame] at this
    exact this

/-- C6, witness: task Bob at frame 50 selected; the request of
`saveAnnotation("Bob")` carries frame 50, and a success that arrives while
task 0 is still selected records `{frame: 50, name: "Bob"}` under task 0; the
progress then reads 1/1. -/
theorem saveAnnotation_applied_on_success_witness :
    (∃ request, saveAnnotationStart "Bob" (selectTask 0 bobWorld).world =
        .sent request (selectTask 0 bobWorld).world ∧
      request.name = "Bob" ∧ request.taskIndex = 0 ∧
      request.absoluteFrame =
        jsAdd (folderStart "0_999") (selectTask 0 bobWorld).world.state.currentFrameIndex ∧
      ∀ later : World,
        (∀ message,
          ( saveAnnotationFinish request (.rejected message) later).state.existingAnnotations =
            later.state.existingAnnotations) ∧
        (∀ message,
          ( saveAnnotationFinish request (.json false message) later).state.existingAnnotations =
            later.state.existingAnnotations) ∧
        (∀ message, later.state.currentTaskIndex = -1 →
          ( saveAnnotationFinish request (.json true message) later).state.existingAnnotations =
            later.state.existingAnnotations) ∧
        (∀ message, later.state.currentTaskIndex ≠ -1 →
          mapGet ( saveAnnotationFinish request (.json true message)
              later).state.existingAnnotations (some later.state.currentTaskIndex) =
            some { frame := jsAdd (folderStart "0_999")
                     (selectTask 0 bobWorld).world.state.currentFrameIndex,
                   name := "Bob" } ∧
          ∀ key, key ≠ some later.state.currentTaskIndex →
            mapGet ( saveAnnotationFinish request (.json true message)
                later).state.existingAnnotations key =
              mapGet later.state.existingAnnotations key) ∧
        (∀ message, later.state.currentTaskIndex = 0 →
          mapGet ( saveAnnotationFinish request (.json true message)
              later).state.existingAnnotations (some 0) =
            some { frame := jsAdd (folderStart "0_999")
                     (selectTask 0 bobWorld).world.state.currentFrameIndex,
                   name := "Bob" })) ∧
    jsAdd (folderStart "0_999") (selectTask 0 bobWorld).world.state.currentFrameIndex =
      some 50 ∧
    mapGet ( saveAnnotationFinish
        { video := some "match1", folder := "0_999", imageFile := "000050.jpg",
          absoluteFrame := some 50, name := "Bob", taskIndex := 0 }
        (.json true none) (selectTask 0 bobWorld).world).state.existingAnnotations (some 0) =
      some { frame := some 50, name := "Bob" } ∧
    ( saveAnnotationFinish
        { video := some "match1", folder := "0_999", imageFile := "000050.jpg",
          absoluteFrame := some 50, name := "Bob", taskIndex := 0 }
        (.json true none) (selectTask 0 bobWorld).world).dom.taskProgress = "(1/1)" :=
  ⟨saveAnnotation_applied_on_success (selectTask 0 bobWorld).world "Bob" 0 "0_999"
      (by decide) (by decide) (by decide) (by decide),
    by decide, by decide, by decide⟩

/-- C6, counterexample to the claim as stated: the page `whileSaving` has a
loaded video, task 0 selected and a current folder; `saveAnnotation("Bob")`
sends its request from there.  The user selects task 1 before the success
response arrives.  After the response `existingAnnotations.get(0)` is still
unset, and the entry of task 1, which the claim says is not changed, holds
`{frame: 50, name: "Bob"}`. -/
theorem saveAnnotation_interleaved_counterexample :
    truthy whileSaving.state.currentVideo = true ∧
    whileSaving.state.currentTaskIndex = 0 ∧
    arrayAt whileSaving.state.folders whileSaving.state.currentFolderIndex = some "0_999" ∧
    saveAnnotationStart "Bob" whileSaving = .sent staleRequest whileSaving ∧
    otherTaskSelected = (selectTask 1 whileSaving).world ∧
    mapGet otherTaskSelected.state.existingAnnotations (some 1) = none ∧
    mapGet ( saveAnnotationFinish staleRequest (.json true none)
        otherTaskSelected).state.existingAnnotations (some 0) = none ∧
    mapGet ( saveAnnotationFinish staleRequest (.json true none)
        otherTaskSelected).state.existingAnnotations (some 1) =
      some { frame := some 50, name := "Bob" } := by
  refine ⟨by decide, by decide, by decide, by rfl, rfl, by decide, by decide, by decide⟩

/-! ## C7: selecting a task -/

theorem mapHas_eq_isSome (m : List (JSNum × Annotation)) (key : JSNum) :
    mapHas m key = (mapGet m key).isSome := by
  induction m with
  | nil => rfl
  | cons entry rest ih =>
    unfold mapHas mapGet
    by_cases h : entry.1 = key
    · simp [h]
    · simp [h, ih]

theorem viewState_taskIndex (s : State) :
    (viewState s).currentTaskIndex = s.currentTaskIndex := by
  unfold viewState
  split <;> rfl

theorem goToAbsoluteFrame_taskIndex (absoluteFrame : JSNum) (w : World) :
    (goToAbsoluteFrame absoluteFrame w).world.state.currentTaskIndex =
      w.state.currentTaskIndex := by
  unfold goToAbsoluteFrame
  split
  · rfl
  · simp only
    split
    · split
      · rfl
      · rw [updateView_andThen, world_done]
        rw [(folders_of_preloadImages _ _ _ _).2.2.2.1, updateView_state, viewState_taskIndex]
    · rfl

theorem andThen_renderTaskList_state (o : Outcome) :
    (o.andThen (fun w2 => .done (renderTaskList w2))).world.state = o.world.state := by
  cases o with
  | done w => exact renderTaskList_state w
  | threw e w => rfl

theorem andThen_renderTaskList_hasThrown (o : Outcome) :
    (o.andThen (fun w2 => .done (renderTaskList w2))).hasThrown = o.hasThrown := by
  cases o <;> rfl

theorem selectTask_eq (w : World) (i : Nat) (task : Task)
    (htask : w.state.tasks[i]? = some task) :
    selectTask (i : Int) w =
      (goToAbsoluteFrame (targetFrame w.state (i : Int) task) (withTask (i : Int) w)).andThen
        (fun w2 => .done (renderTaskList w2)) := by
  unfold selectTask targetFrame
  simp only [arrayAt_natCast, htask, mapHas_eq_isSome]
  cases hget : mapGet w.state.existingAnnotations (some (i : Int)) with
  | none => simp [withTask]
  | some ann => simp [withTask]

/-- C7 (as amended): for every index `i` of a task of the loaded list,
`selectTask(i)` sets the selected task index to `i`; and when a video is
loaded and the target frame `f` (the frame of the confirmed annotation of the
task if it has one, the nominal frame of the task otherwise) has its first
containing range `[s, e]` with `f - s <= 999`, the call completes and the
current absolute frame afterwards is `f`. -/
theorem selectTask_navigates (w : World) (i : Nat) (task : Task)
    (htask : w.state.tasks[i]? = some task) :
    (selectTask (i : Int) w).world.state.currentTaskIndex = (i : Int) ∧
    ∀ (f : Int) (j : Nat) (name : String) (s : Int),
      truthy w.state.currentVideo = true →
      targetFrame w.state (i : Int) task = some f →
      firstContaining w.state.folders f j →
      w.state.folders[j]? = some name → folderStart name = some s → f - s ≤ 999 →
      (selectTask (i : Int) w).hasThrown = false ∧
      getCurrentAbsoluteFrame (selectTask (i : Int) w).world.state = .ok (some f) := by
  rw [selectTask_eq w i task htask]
  refine ⟨?_, ?_⟩
  · rw [andThen_renderTaskList_state, goToAbsoluteFrame_taskIndex]
    rfl
  · intro f j name s hloaded htarget hfirst hname hs hoff
    rw [andThen_renderTaskList_state, andThen_renderTaskList_hasThrown, htarget]
    obtain ⟨h1, _, _, _, h5⟩ := goToAbsoluteFrame_position (withTask (i : Int) w) f j name s
      hloaded hfirst hname hs
    refine ⟨h1, ?_⟩
    rw [h5]
    have hmin : min 999 (f - s) = f - s := by omega
    rw [hmin]
    congr 2
    omega

/-- C7, witness: tasks `[{name: "Bob", frame: 50}]`, no annotations;
`selectTask(0)` selects task 0 and ends at absolute frame 50. -/
theorem selectTask_navigates_witness :
    (selectTask 0 bobWorld).world.state.currentTaskIndex = 0 ∧
    (selectTask 0 bobWorld).hasThrown = false ∧
    getCurrentAbsoluteFrame (selectTask 0 bobWorld).world.state = .ok (some 50) :=
  ⟨(selectTask_navigates bobWorld 0 { name := "Bob", frame := 50 } (by decide)).1,
    (selectTask_navigates bobWorld 0 { name := "Bob", frame := 50 } (by decide)).2
      50 0 "0_999" 0 (by decide) (by decide)
      ⟨⟨"0_999", by decide, by decide⟩, fun j _ hj _ => absurd hj (Nat.not_lt_zero j)⟩
      (by decide) (by decide) (by decide)⟩

/-- C7, counterexample to the claim as stated: folder `0_1999`, task Bob at
frame 1500.  The target frame 1500 lies inside the range `[0, 1999]`, yet
after `selectTask(0)` the current absolute frame is 999. -/
theorem selectTask_navigates_counterexample :
    wideTaskWorld.state.tasks[0]? = some { name := "Bob", frame := 1500 } ∧
    targetFrame wideTaskWorld.state 0 { name := "Bob", frame := 1500 } = some 1500 ∧
    wideTaskWorld.state.folders = ["0_1999"] ∧ folderContains "0_1999" 1500 ∧
    (selectTask 0 wideTaskWorld).world.state.currentTaskIndex = 0 ∧
    (selectTask 0 wideTaskWorld).world.state.currentFrameIndex = some 999 ∧
    getCurrentAbsoluteFrame (selectTask 0 wideTaskWorld).world.state = .ok (some 999) := by
  refine ⟨by decide, by decide, by decide, by decide, by decide, by decide, by rfl⟩

/-! ## C8: highlight derivation -/

theorem shouldHighlight_iff (s : State) (current : JSNum) (n : String) :
    shouldHighlight s current n = true ↔
      (s.currentTaskIndex ≠ -1 ∧
        ∃ ann, mapGet s.existingAnnotations (some s.currentTaskIndex) = some ann ∧
          ann.name = n ∧ ∃ f : Int, ann.frame = some f ∧ current = some f) := by
  unfold shouldHighlight
  rw [mapHas_eq_isSome]
  by_cases hsel : s.currentTaskIndex = -1
  · simp [hsel]
  · cases hget : mapGet s.existingAnnotations (some s.currentTaskIndex) with
    | none => simp [hsel]
    | some ann =>
      simp only [ne_eq, hsel, not_false_eq_true, decide_True, Option.isSome_some, Bool.and_self,
        if_true, Bool.and_eq_true, decide_eq_true_eq, Option.some.injEq, exists_eq_left',
        true_and]
      unfold jsStrictEq
      cases hfr : ann.frame with
      | none => simp
      | some x =>
        cases hcur : current with
        | none => simp
        | some y =>
          simp only [decide_eq_true_eq, Option.some.injEq, exists_eq_left']
          constructor
          · rintro ⟨h1, h2⟩; exact ⟨h1, h2.symm⟩
          · rintro ⟨h1, h2⟩; exact ⟨h1, h2.symm⟩

/-- C8: for every state and every name `n` of the name list, `renderNameList`
marks `n` as selected if and only if a task is selected
(`currentTaskIndex != -1`), that task has a confirmed annotation, the name of
the annotation is `n` and its frame is the current absolute frame. -/
theorem renderNameList_highlight (w : World) (n : String) (hn : n ∈ w.state.names) :
    NameEl.item n true ∈ (renderNameList w).world.dom.nameList ↔
      (w.state.currentTaskIndex ≠ -1 ∧
        ∃ ann, mapGet w.state.existingAnnotations (some w.state.currentTaskIndex) = some ann ∧
          ann.name = n ∧
          ∃ f : Int, ann.frame = some f ∧ getCurrentAbsoluteFrame w.state = .ok (some f)) := by
  have hlen : (w.state.names.length == 0) = false := by
    cases hnames : w.state.names with
    | nil => rw [hnames] at hn; cases hn
    | cons a rest => simp
  unfold renderNameList
  simp only [hlen, Bool.false_eq_true, if_false]
  cases hcur : getCurrentAbsoluteFrame w.state with
  | error e =>
    simp [Outcome.world]
  | ok current =>
    simp only [Outcome.world, List.mem_map, NameEl.item.injEq, Except.ok.injEq]
    rw [← shouldHighlight_iff]
    constructor
    · rintro ⟨m, _, rfl, h⟩; exact h
    · intro h; exact ⟨n, hn, rfl, h⟩

/-- C8, witness: with the annotation `{frame: 5025, name: "Alice"}` on the
selected task, at absolute frame 5025 exactly Alice is highlighted and at 5026
no name is. -/
theorem renderNameList_highlight_witness :
    NameEl.item "Alice" true ∈
      (renderNameList (withPosition 0 (some 25) aliceWorld)).world.dom.nameList ∧
    getCurrentAbsoluteFrame (goToAbsoluteFrame (some 5025) aliceWorld).world.state =
      .ok (some 5025) ∧
    (goToAbsoluteFrame (some 5025) aliceWorld).world.dom.nameList =
      [.item "Alice" true, .item "Bob" false] ∧
    getCurrentAbsoluteFrame (goToAbsoluteFrame (some 5026) aliceWorld).world.state =
      .ok (some 5026) ∧
    (goToAbsoluteFrame (some 5026) aliceWorld).world.dom.nameList =
      [.item "Alice" false, .item "Bob" false] :=
  ⟨(renderNameList_highlight (withPosition 0 (some 25) aliceWorld) "Alice" (by decide)).mpr
      ⟨by decide, { frame := some 5025, name := "Alice" }, by decide, rfl, 5025, rfl, by rfl⟩,
    by rfl, by decide, by rfl, by decide⟩

/-! ## The cleanup step of the cache -/

theorem foldl_cacheDelete_append (old kept : List String) (h : (old ++ kept).Nodup) :
    old.foldl cacheDelete (old ++ kept) = kept := by
  induction old with
  | nil => rfl
  | cons url rest ih =>
    have hrest : (rest ++ kept).Nodup := by
      rw [List.cons_append] at h
      exact h.of_cons
    show rest.foldl cacheDelete (cacheDelete (url :: (rest ++ kept)) url) = kept
    unfold cacheDelete
    rw [List.erase_cons_head]
    exact ih hrest

theorem cacheCleanup_of_large (cache : List String) (hnodup : cache.Nodup)
    (hlarge : 100 < cache.length) :
    cacheCleanup cache = cache.drop (cache.length - 80) := by
  unfold cacheCleanup
  have hgt : cache.length > 100 := hlarge
  simp only [hgt, if_true]
  have hsplit := List.take_append_drop (cache.length - 80) cache
  have hnd : (cache.take (cache.length - 80) ++ cache.drop (cache.length - 80)).Nodup := by
    rw [hsplit]; exact hnodup
  have := foldl_cacheDelete_append _ _ hnd
  rw [hsplit] at this
  exact this

/-- What the cleanup step does to a list of distinct URLs: above 100 entries
the last 80 in insertion order survive and every earlier one is absent; at
most 100 entries are left untouched. -/
theorem cacheCleanup_evicts (cache : List String) (hnodup : cache.Nodup) :
    (100 < cache.length →
      (cacheCleanup cache).length = 80 ∧
      cacheCleanup cache = cache.drop (cache.length - 80) ∧
      ∀ url ∈ cache.take (cache.length - 80), url ∉ cacheCleanup cache) ∧
    (cache.length ≤ 100 → cacheCleanup cache = cache) := by
  constructor
  · intro hlarge
    have heq := cacheCleanup_of_large cache hnodup hlarge
    refine ⟨?_, heq, ?_⟩
    · rw [heq, List.length_drop]
      omega
    · intro url hold hkept
      rw [heq] at hkept
      have hnd : (cache.take (cache.length - 80) ++ cache.drop (cache.length - 80)).Nodup := by
        rw [List.take_append_drop]; exact hnodup
      exact (List.nodup_append.mp hnd).2.2 hold hkept
  · intro hsmall
    unfold cacheCleanup
    have : ¬ cache.length > 100 := by omega
    simp only [this, if_false]

set_option maxRecDepth 100000 in
theorem sampleUrls_nodup : sampleUrls.Nodup := by decide

/-- The cleanup step on a sample list of 101 distinct entries: 80 remain and
the 20 earliest are absent. -/
theorem cacheCleanup_sample :
    sampleUrls.length = 101 ∧ (cacheCleanup sampleUrls).length = 80 ∧
    ∀ url ∈ sampleUrls.take 20, url ∉ cacheCleanup sampleUrls :=
  ⟨by decide, ((cacheCleanup_evicts sampleUrls sampleUrls_nodup).1 (by decide)).1,
    fun url hurl => ((cacheCleanup_evicts sampleUrls sampleUrls_nodup).1 (by decide)).2.2 url
      (List.take_subset_take_left sampleUrls (by decide : 20 ≤ sampleUrls.length - 80) hurl)⟩

/-! ## C10: timecode of the displayed frame -/

theorem renderNameList_frameInfo (w : World) :
    (renderNameList w).world.dom.frameInfoDisplay = w.dom.frameInfoDisplay := by
  unfold renderNameList
  simp only
  split
  · rfl
  · split <;> rfl

theorem updateView_frameInfo (w : World) (name : String) (hdata : hasData w.state = true)
    (hname : arrayAt w.state.folders (clampPosition w.state).currentFolderIndex = some name)
    (htruthy : truthy (some name) = true) :
    (updateView w).world.dom.frameInfoDisplay =
      "Time: " ++ timecode (jsAdd (folderStart name) (clampPosition w.state).currentFrameIndex) ++
        " | Absolute Frame: " ++
        jsString (jsAdd (folderStart name) (clampPosition w.state).currentFrameIndex) := by
  have hd : (!truthy w.state.currentVideo || w.state.folders.length == 0) = false := by
    have : (!(!truthy w.state.currentVideo || w.state.folders.length == 0)) = true := hdata
    simpa using this
  unfold updateView
  simp only [hd, Bool.false_eq_true, if_false]
  have hname2 : arrayAt w.state.folders
      (max 0 (min ((w.state.folders.length : Int) - 1) w.state.currentFolderIndex)) = some name :=
    hname
  rw [hname2]
  simp only [htruthy, Bool.not_true, Bool.false_eq_true, if_false]
  rw [renderNameList_frameInfo]
  rfl

theorem timecode_of_nonneg (f : Int) (h : 0 ≤ f) :
    timecode (some f) =
      padStart (toString (f / 25 / 3600)) 2 ++ ":" ++ padStart (toString (f / 25 % 3600 / 60)) 2 ++
        ":" ++ padStart (toString (f / 25 % 60)) 2 := by
  have h25 : Int.fdiv f 25 = f / 25 := Int.fdiv_eq_ediv f (by decide)
  have ht : 0 ≤ f / 25 := Int.ediv_nonneg h (by decide)
  have h3600 : Int.fdiv (f / 25) 3600 = f / 25 / 3600 := Int.fdiv_eq_ediv _ (by decide)
  have hm3600 : Int.tmod (f / 25) 3600 = f / 25 % 3600 := Int.tmod_eq_emod ht (by decide)
  have h60 : Int.fdiv (f / 25 % 3600) 60 = f / 25 % 3600 / 60 := Int.fdiv_eq_ediv _ (by decide)
  have hm60 : Int.tmod (f / 25) 60 = f / 25 % 60 := Int.tmod_eq_emod ht (by decide)
  simp only [timecode, floorDiv, jsRem, Option.map_some', jsString, h25, h3600, hm3600, h60, hm60]

theorem padStart_length (s : String) (n : Nat) : n ≤ (padStart s n).length := by
  unfold padStart
  rw [String.length_append]
  have : (String.mk (List.replicate (n - s.length) '0')).length = n - s.length := by
    show (List.replicate (n - s.length) '0').length = n - s.length
    exact List.length_replicate _ _
  rw [this]
  omega

/-- C10: when the view refresh shows the non-negative absolute frame `f`
(a video with folders is loaded and `f` is the current absolute frame after
the refresh), the text it displays is `Time: hh:mm:ss | Absolute Frame: f`
with `hh*3600 + mm*60 + ss = floor(f/25)`, `0 <= mm < 60`, `0 <= ss < 60`,
and each of the three fields padded with zeros to at least two characters. -/
theorem updateView_timecode (w : World) (f : Int) (hdata : hasData w.state = true)
    (hframe : getCurrentAbsoluteFrame (updateView w).world.state = .ok (some f))
    (hnonneg : 0 ≤ f) :
    ∃ hh mm ss : Int,
      hh * 3600 + mm * 60 + ss = f / 25 ∧ 0 ≤ hh ∧ 0 ≤ mm ∧ mm < 60 ∧ 0 ≤ ss ∧ ss < 60 ∧
      (updateView w).world.dom.frameInfoDisplay =
        "Time: " ++ (padStart (toString hh) 2 ++ ":" ++ padStart (toString mm) 2 ++ ":" ++
          padStart (toString ss) 2) ++ " | Absolute Frame: " ++ toString f ∧
      2 ≤ (padStart (toString hh) 2).length ∧ 2 ≤ (padStart (toString mm) 2).length ∧
      2 ≤ (padStart (toString ss) 2).length := by
  have hd : (!(!truthy w.state.currentVideo || w.state.folders.length == 0)) = true := hdata
  have hview : viewState w.state = clampPosition w.state := by
    unfold viewState
    rw [if_pos hd]
  rw [updateView_state, hview] at hframe
  have hlen : ((clampPosition w.state).folders.length == 0) = false := by
    have : (w.state.folders.length == 0) = false := by
      cases h0 : (w.state.folders.length == 0)
      · rfl
      · rw [h0] at hd; simp at hd
    exact this
  unfold getCurrentAbsoluteFrame at hframe
  simp only [hlen, Bool.false_eq_true, if_false] at hframe
  cases harr : arrayAt (clampPosition w.state).folders (clampPosition w.state).currentFolderIndex with
  | none => rw [harr] at hframe; cases hframe
  | some name =>
    rw [harr] at hframe
    have hsum : jsAdd (folderStart name) (clampPosition w.state).currentFrameIndex = some f := by
      simpa using hframe
    have htruthy : truthy (some name) = true := by
      cases hs : folderStart name with
      | none => rw [hs] at hsum; simp [jsAdd] at hsum
      | some st => exact truthy_of_folderStart name st hs
    have hdisplay := updateView_frameInfo w name hdata harr htruthy
    rw [hsum, timecode_of_nonneg f hnonneg] at hdisplay
    refine ⟨f / 25 / 3600, f / 25 % 3600 / 60, f / 25 % 60, by omega, by omega, by omega,
      by omega, by omega, by omega, hdisplay, padStart_length _ 2, padStart_length _ 2,
      padStart_length _ 2⟩

/-- C10, witness: folders `0_999`, `1000_1999`; the jump to absolute frame
1500 resolves to folder index 1, offset 500, and the display reads
`00:01:00`. -/
theorem updateView_timecode_witness :
    (∃ hh mm ss : Int,
      hh * 3600 + mm * 60 + ss = 1500 / 25 ∧ 0 ≤ hh ∧ 0 ≤ mm ∧ mm < 60 ∧ 0 ≤ ss ∧ ss < 60 ∧
      (updateView (withPosition 1 (some 500) twoFolderWorld)).world.dom.frameInfoDisplay =
        "Time: " ++ (padStart (toString hh) 2 ++ ":" ++ padStart (toString mm) 2 ++ ":" ++
          padStart (toString ss) 2) ++ " | Absolute Frame: " ++ toString (1500 : Int) ∧
      2 ≤ (padStart (toString hh) 2).length ∧ 2 ≤ (padStart (toString mm) 2).length ∧
      2 ≤ (padStart (toString ss) 2).length) ∧
    (goToAbsoluteFrame (some 1500) twoFolderWorld).world.state.currentFolderIndex = 1 ∧
    (goToAbsoluteFrame (some 1500) twoFolderWorld).world.state.currentFrameIndex = some 500 ∧
    (goToAbsoluteFrame (some 1500) twoFolderWorld).world.dom.frameInfoDisplay =
      "Time: 00:01:00 | Absolute Frame: 1500" :=
  ⟨updateView_timecode (withPosition 1 (some 500) twoFolderWorld) 1500 (by decide) (by rfl)
      (by decide),
    by decide, by decide, by decide⟩

/-! ## C12: continuous scrubbing -/

theorem renderNameList_keyboard (w : World) :
    (renderNameList w).world.keyboard = w.keyboard := by
  unfold renderNameList
  simp only
  split
  · rfl
  · split <;> rfl

theorem updateView_keyboard (w : World) : (updateView w).world.keyboard = w.keyboard := by
  unfold updateView
  split
  · rfl
  · simp only
    split
    · rfl
    · split
      · rfl
      · rw [renderNameList_keyboard]

theorem moveFrame_step (direction : Int) (w : World) (o : Int)
    (hoff : w.state.currentFrameIndex = some o) :
    moveFrame direction w = .done (moveFrame direction w).world ∧
    (moveFrame direction w).world.state.currentFrameIndex =
      some (max 0 (min 999 (o + direction))) ∧
    (moveFrame direction w).world.keyboard = w.keyboard := by
  rw [moveFrame_eq, world_done]
  obtain ⟨cache, hst, _, hkey⟩ := refresh_spec direction
    (withPosition w.state.currentFolderIndex
      (mathMax (some 0) (mathMin (some 999) (jsAdd w.state.currentFrameIndex (some direction)))) w)
  refine ⟨rfl, ?_, ?_⟩
  · rw [hst]
    exact viewState_frame_clamped _ (o + direction)
      (by simp [withPosition, hoff, jsAdd, mathMax, mathMin])
  · rw [hkey, updateView_keyboard]
    rfl

theorem startFrameMovement_idle (direction : Int) (w : World) (o : Int)
    (hidle : w.keyboard.frameInterval = none) (hoff : w.state.currentFrameIndex = some o) :
    (startFrameMovement direction w).hasThrown = false ∧
    (startFrameMovement direction w).world.state.currentFrameIndex =
      some (max 0 (min 999 (o + direction))) ∧
    (startFrameMovement direction w).world.keyboard =
      { w.keyboard with frameInterval := some direction, currentDirection := direction } := by
  obtain ⟨h1, h2, h3⟩ := moveFrame_step direction
    { w with keyboard := { w.keyboard with currentDirection := direction } } o hoff
  have hnot : ¬ (w.keyboard.frameInterval.isSome = true) := by simp [hidle]
  unfold startFrameMovement
  rw [if_neg hnot]
  dsimp only
  rw [h1]
  refine ⟨rfl, h2, ?_⟩
  show ({ (moveFrame direction
    { w with keyboard := { w.keyboard with currentDirection := direction } }).world.keyboard with
      frameInterval := some direction } : KeyboardState) = _
  rw [h3]

theorem intervalTick_active (direction : Int) (w : World) (o : Int)
    (hactive : w.keyboard.frameInterval = some direction)
    (hoff : w.state.currentFrameIndex = some o) :
    (intervalTick w).hasThrown = false ∧
    (intervalTick w).world.state.currentFrameIndex = some (max 0 (min 999 (o + direction))) ∧
    (intervalTick w).world.keyboard = w.keyboard := by
  obtain ⟨h1, h2, h3⟩ := moveFrame_step direction w o hoff
  unfold intervalTick
  simp only [hactive]
  rw [h1]
  exact ⟨rfl, h2, h3⟩

theorem startFrameMovement_active (direction : Int) (w : World)
    (hactive : w.keyboard.frameInterval.isSome = true) :
    startFrameMovement direction w = .done w := by
  unfold startFrameMovement
  simp [hactive]

/-- C12: for every state with no active scrubbing session whose frame offset
`o` (a frame offset, so `0 <= o`) satisfies `o + 3 <= 999`, the event sequence
`startFrameMovement(+1)`, interval tick, interval tick, `stopFrameMovement()`
runs without throwing and leaves the frame offset at exactly `o + 3`, the
interval handle cleared and the direction reset to 0, so that a further tick
changes nothing; the session is active after the start and after each tick,
and a `startFrameMovement` call made while a session is active changes
nothing. -/
theorem scrubRight_three_steps (w : World) (o : Int)
    (hidle : w.keyboard.frameInterval = none)
    (hoff : w.state.currentFrameIndex = some o) (hlow : 0 ≤ o) (hhigh : o + 3 ≤ 999) :
    (startFrameMovement 1 w).hasThrown = false ∧
    (startFrameMovement 1 w).world.state.currentFrameIndex = some (o + 1) ∧
    (intervalTick (startFrameMovement 1 w).world).hasThrown = false ∧
    (intervalTick (startFrameMovement 1 w).world).world.state.currentFrameIndex = some (o + 2) ∧
    (intervalTick (intervalTick (startFrameMovement 1 w).world).world).hasThrown = false ∧
    (scrubRight w).state.currentFrameIndex = some (o + 3) ∧
    (scrubRight w).keyboard.frameInterval = none ∧
    (scrubRight w).keyboard.currentDirection = 0 ∧
    intervalTick (scrubRight w) = .done (scrubRight w) ∧
    (∀ direction : Int,
      startFrameMovement direction (startFrameMovement 1 w).world =
        .done (startFrameMovement 1 w).world) ∧
    (∀ (v : World) (direction : Int), v.keyboard.frameInterval.isSome = true →
      startFrameMovement direction v = .done v) := by
  obtain ⟨a1, a2, a3⟩ := startFrameMovement_idle 1 w o hidle hoff
  have e1 : max 0 (min 999 (o + 1)) = o + 1 := by omega
  rw [e1] at a2
  have k1 : (startFrameMovement 1 w).world.keyboard.frameInterval = some 1 := by rw [a3]
  obtain ⟨b1, b2, b3⟩ := intervalTick_active 1 (startFrameMovement 1 w).world (o + 1) k1 a2
  have e2 : max 0 (min 999 (o + 1 + 1)) = o + 2 := by omega
  rw [e2] at b2
  have k2 : (intervalTick (startFrameMovement 1 w).world).world.keyboard.frameInterval =
      some 1 := by rw [b3, k1]
  obtain ⟨c1, c2, c3⟩ := intervalTick_active 1 (intervalTick (startFrameMovement 1 w).world).world
    (o + 2) k2 b2
  have e3 : max 0 (min 999 (o + 2 + 1)) = o + 3 := by omega
  rw [e3] at c2
  have k3 : (intervalTick (intervalTick (startFrameMovement 1 w).world).world).world.keyboard.frameInterval
      = some 1 := by rw [c3, k2]
  have hstop : scrubRight w =
      { (intervalTick (intervalTick (startFrameMovement 1 w).world).world).world with
        keyboard := { (intervalTick (intervalTick
          (startFrameMovement 1 w).world).world).world.keyboard with
            frameInterval := none, currentDirection := 0 } } := by
    unfold scrubRight stopFrameMovement
    simp [k3]
  refine ⟨a1, a2, b1, b2, c1, ?_, ?_, ?_, ?_, ?_, ?_⟩
  · rw [hstop]; exact c2
  · rw [hstop]
  · rw [hstop]
  · have hnone : (scrubRight w).keyboard.frameInterval = none := by rw [hstop]
    unfold intervalTick
    rw [hnone]
  · intro direction
    exact startFrameMovement_active direction _ (by rw [k1]; rfl)
  · intro v direction hv
    exact startFrameMovement_active direction v hv

/-- C12, witness: from offset 0 of the two folder sample the scrub ends at
offset 3 with the interval cleared and the direction 0. -/
theorem scrubRight_three_steps_witness :
    (startFrameMovement 1 twoFolderWorld).hasThrown = false ∧
    (startFrameMovement 1 twoFolderWorld).world.state.currentFrameIndex = some 1 ∧
    (intervalTick (startFrameMovement 1 twoFolderWorld).world).hasThrown = false ∧
    (intervalTick (startFrameMovement 1 twoFolderWorld).world).world.state.currentFrameIndex =
      some 2 ∧
    (intervalTick (intervalTick (startFrameMovement 1 twoFolderWorld).world).world).hasThrown =
      false ∧
    (scrubRight twoFolderWorld).state.currentFrameIndex = some 3 ∧
    (scrubRight twoFolderWorld).keyboard.frameInterval = none ∧
    (scrubRight twoFolderWorld).keyboard.currentDirection = 0 ∧
    intervalTick (scrubRight twoFolderWorld) = .done (scrubRight twoFolderWorld) ∧
    (∀ direction : Int,
      startFrameMovement direction (startFrameMovement 1 twoFolderWorld).world =
        .done (startFrameMovement 1 twoFolderWorld).world) ∧
    (∀ (v : World) (direction : Int), v.keyboard.frameInterval.isSome = true →
      startFrameMovement direction v = .done v) :=
  scrubRight_three_steps twoFolderWorld 0 (by decide) (by decide) (by decide) (by decide)

/-! ## C13: a response that arrives after the selection has changed -/

/-- C13 (as amended): the response step of `saveAnnotation` does not look at
the video or the task index of the request.  On a success response it records
`{frame, name}` as captured by the request under the task index that is
selected when the response arrives, whatever was selected when the request
was sent; `existingAnnotations` stays as it was only when no task is selected
at that moment (or the response is not a success). -/
theorem saveAnnotationFinish_uses_current_task (request : AnnotationData) (w : World)
    (message : Option String) :
    ( saveAnnotationFinish request (.json true message) w).state.existingAnnotations =
      (if w.state.currentTaskIndex ≠ -1 then
        mapSet w.state.existingAnnotations (some w.state.currentTaskIndex)
          { frame := request.absoluteFrame, name := request.name }
      else w.state.existingAnnotations) ∧
    (∀ failure, ( saveAnnotationFinish request (.rejected failure) w).state.existingAnnotations =
      w.state.existingAnnotations) ∧
    ( saveAnnotationFinish request (.json false message) w).state.existingAnnotations =
      w.state.existingAnnotations := by
  refine ⟨?_, fun _ => rfl, rfl⟩
  by_cases hsel : w.state.currentTaskIndex = -1
  · have hno : ¬ (w.state.currentTaskIndex ≠ -1) := by simp [hsel]
    rw [if_neg hno]
    unfold saveAnnotationFinish
    simp only [if_true, hno, if_false]
    rfl
  · rw [if_pos hsel]
    exact saveAnnotationFinish_success request w message hsel

/-- C13, counterexample to the claim as stated.  The request is sent with task
0 of `match1` selected.  (a) The user selects task 1 before the success
response arrives: the response step changes `existingAnnotations`, recording
the annotation under task 1 and nothing under task 0.  (b) The user loads
`match2` before the response arrives: the response step records the frame and
name of `match1` under task 0 of `match2`. -/
theorem saveAnnotationFinish_stale_counterexample :
    saveAnnotationStart "Bob" whileSaving = .sent staleRequest whileSaving ∧
    staleRequest.taskIndex = 0 ∧ staleRequest.video = some "match1" ∧
    otherTaskSelected.state.currentTaskIndex = 1 ∧
    otherTaskSelected.state.existingAnnotations = [] ∧
    ( saveAnnotationFinish staleRequest (.json true none)
        otherTaskSelected).state.existingAnnotations =
      [(some 1, { frame := some 50, name := "Bob" })] ∧
    otherVideoLoaded.state.currentVideo = some "match2" ∧
    otherVideoLoaded.state.existingAnnotations = [] ∧
    ( saveAnnotationFinish staleRequest (.json true none)
        otherVideoLoaded).state.existingAnnotations =
      [(some 0, { frame := some 50, name := "Bob" })] := by
  refine ⟨by rfl, by decide, by decide, by decide, by decide, by decide, by decide,
    by decide, by decide⟩

/-! ## C11: the prefetch window -/

theorem digitChar_decimal : ∀ k, k < 10 →
    (48 ≤ (Nat.digitChar k).toNat ∧ (Nat.digitChar k).toNat ≤ 57) ∧ (Nat.digitChar k).toNat - 48 = k := by
  decide

theorem toDigitsCore_spec (fuel : Nat) : ∀ (n : Nat) (ds : List Char), n < fuel →
    ∃ pre, Nat.toDigitsCore 10 fuel n ds = pre ++ ds ∧ (∀ c ∈ pre, isDecimal c) ∧
      decodeDigits 0 pre = n ∧ (pre.head? = some '0' → n = 0) := by
  induction fuel with
  | zero => intro n ds h; omega
  | succ fuel ih =>
    intro n ds h
    have hd := digitChar_decimal (n % 10) (Nat.mod_lt _ (by decide))
    unfold Nat.toDigitsCore
    by_cases h0 : n / 10 = 0
    · simp only [h0, if_true]
      refine ⟨[Nat.digitChar (n % 10)], rfl, ?_, ?_, ?_⟩
      · intro c hc
        simp only [List.mem_singleton] at hc
        subst hc
        exact hd.1
      · simp only [decodeDigits, List.foldl_cons, List.foldl_nil, Nat.zero_mul, Nat.zero_add]
        rw [hd.2]
        omega
      · intro hhead
        simp only [List.head?_cons, Option.some.injEq] at hhead
        have := hd.2
        rw [hhead] at this
        have h48 : ('0' : Char).toNat - 48 = 0 := by decide
        omega
    · simp only [h0, if_false]
      obtain ⟨pre, hpre, hdec, hval, hhead⟩ := ih (n / 10) (Nat.digitChar (n % 10) :: ds) (by omega)
      refine ⟨pre ++ [Nat.digitChar (n % 10)], ?_, ?_, ?_, ?_⟩
      · rw [hpre]; simp
      · intro c hc
        rcases List.mem_append.mp hc with hc | hc
        · exact hdec c hc
        · simp only [List.mem_singleton] at hc
          subst hc
          exact hd.1
      · simp only [decodeDigits, List.foldl_append, List.foldl_cons, List.foldl_nil]
        have : List.foldl (fun a c => a * 10 + (c.toNat - 48)) 0 pre = n / 10 := hval
        rw [this, hd.2]
        omega
      · intro hh
        cases pre with
        | nil => simp [decodeDigits] at hval; omega
        | cons p ps =>
          simp only [List.cons_append, List.head?_cons] at hh
          exact absurd (hhead hh) h0

theorem toDigits_spec (n : Nat) :
    (∀ c ∈ Nat.toDigits 10 n, isDecimal c) ∧ decodeDigits 0 (Nat.toDigits 10 n) = n := by
  obtain ⟨pre, hpre, hdec, hval, _⟩ := toDigitsCore_spec (n + 1) n [] (by omega)
  unfold Nat.toDigits
  rw [hpre, List.append_nil]
  exact ⟨hdec, hval⟩

theorem decodeDigits_dropWhile (cs : List Char) :
    decodeDigits 0 (cs.dropWhile (fun c => c == '0')) = decodeDigits 0 cs := by
  induction cs with
  | nil => rfl
  | cons c rest ih =>
    by_cases hc : c = '0'
    · subst hc
      simp only [List.dropWhile_cons, beq_self_eq_true, if_true]
      rw [ih]
      rfl
    · have : (c == '0') = false := by simpa using hc
      simp only [List.dropWhile_cons, this, Bool.false_eq_true, if_false]

theorem dropWhile_zeros_append (k : Nat) (cs : List Char) :
    (List.replicate k '0' ++ cs).dropWhile (fun c => c == '0') =
      cs.dropWhile (fun c => c == '0') := by
  induction k with
  | zero => rfl
  | succ k ih =>
    simp only [List.replicate_succ, List.cons_append, List.dropWhile_cons, beq_self_eq_true,
      if_true]
    exact ih

theorem decodePadded_of_decimal (cs : List Char) (h : ∀ c ∈ cs, isDecimal c) :
    decodePadded cs = (decodeDigits 0 cs : Int) := by
  unfold decodePadded
  have hsub : ∀ c ∈ cs.dropWhile (fun c => c == '0'), isDecimal c :=
    fun c hc => h c ((List.dropWhile_sublist _).subset hc)
  have hval := decodeDigits_dropWhile cs
  split
  · rename_i ds heq
    have := hsub '-' (by rw [heq]; exact List.mem_cons_self _ _)
    exact absurd this (by unfold isDecimal; decide)
  · rw [hval]

theorem padStart_data (s : String) (n : Nat) :
    (padStart s n).data = List.replicate (n - s.length) '0' ++ s.data := by
  unfold padStart
  rw [String.data_append]

theorem decodePadded_padStart (x : Int) (n : Nat) :
    decodePadded (padStart (toString x) n).data = x := by
  rw [padStart_data]
  cases x with
  | ofNat m =>
    have hdata : (toString (Int.ofNat m)).data = Nat.toDigits 10 m := rfl
    obtain ⟨hdec, hval⟩ := toDigits_spec m
    rw [hdata]
    unfold decodePadded
    rw [dropWhile_zeros_append]
    have := decodePadded_of_decimal (Nat.toDigits 10 m) hdec
    unfold decodePadded at this
    rw [this, hval]
    rfl
  | negSucc m =>
    have hdata : (toString (Int.negSucc m)).data = '-' :: Nat.toDigits 10 (m + 1) := rfl
    obtain ⟨hdec, hval⟩ := toDigits_spec (m + 1)
    rw [hdata]
    unfold decodePadded
    rw [dropWhile_zeros_append]
    have hminus : (('-' : Char) == '0') = false := by decide
    simp only [List.dropWhile_cons, hminus, Bool.false_eq_true, if_false]
    rw [hval]
    rfl

theorem padStart_no_slash (x : Int) (n : Nat) : '/' ∉ (padStart (toString x) n).data := by
  rw [padStart_data]
  intro hmem
  rcases List.mem_append.mp hmem with h | h
  · have := List.eq_of_mem_replicate h
    exact absurd this (by decide)
  · cases x with
    | ofNat m =>
      have hdata : (toString (Int.ofNat m)).data = Nat.toDigits 10 m := rfl
      rw [hdata] at h
      exact absurd ((toDigits_spec m).1 _ h) (by unfold isDecimal; decide)
    | negSucc m =>
      have hdata : (toString (Int.negSucc m)).data = '-' :: Nat.toDigits 10 (m + 1) := rfl
      rw [hdata] at h
      rcases List.mem_cons.mp h with h | h
      · exact absurd h (by decide)
      · exact absurd ((toDigits_spec (m + 1)).1 _ h) (by unfold isDecimal; decide)

theorem split_at_last_slash (a a' r r' : List Char) (hr : '/' ∉ r) (hr' : '/' ∉ r')
    (h : a ++ '/' :: r = a' ++ '/' :: r') : a = a' ∧ r = r' := by
  induction a generalizing a' with
  | nil =>
    cases a' with
    | nil => simp at h; exact ⟨rfl, h⟩
    | cons c cs =>
      simp only [List.nil_append, List.cons_append, List.cons.injEq] at h
      exact absurd (h.2 ▸ List.mem_append_right cs (List.mem_cons_self _ _)) hr
  | cons b bs ih =>
    cases a' with
    | nil =>
      simp only [List.nil_append, List.cons_append, List.cons.injEq] at h
      exact absurd (h.2 ▸ List.mem_append_right bs (List.mem_cons_self _ _)) hr'
    | cons c cs =>
      simp only [List.cons_append, List.cons.injEq] at h
      obtain ⟨h1, h2⟩ := ih cs h.2
      exact ⟨by rw [h.1, h1], h2⟩

theorem imagePath_injective (video : Option String) (name name' : String) (x y : Int)
    (h : imagePath video name (some x) = imagePath video name' (some y)) :
    name = name' ∧ x = y := by
  unfold imagePath jsString at h
  simp only at h
  have hd := congrArg String.data h
  simp only [String.data_append, List.append_assoc] at hd
  have hd2 := List.append_cancel_left hd
  have hd3 := List.append_cancel_left hd2
  have hd4 := List.append_cancel_left hd3
  have hjpg : '/' ∉ ['.', 'j', 'p', 'g'] := by decide
  have hsplit := split_at_last_slash name.data name'.data
    ((padStart (toString x) 6).data ++ ['.', 'j', 'p', 'g'])
    ((padStart (toString y) 6).data ++ ['.', 'j', 'p', 'g'])
    (by
      intro hm
      rcases List.mem_append.mp hm with hm | hm
      · exact padStart_no_slash x 6 hm
      · exact hjpg hm)
    (by
      intro hm
      rcases List.mem_append.mp hm with hm | hm
      · exact padStart_no_slash y 6 hm
      · exact hjpg hm)
    (by simpa using hd4)
  refine ⟨String.ext hsplit.1, ?_⟩
  have hpad := List.append_cancel_right hsplit.2
  have := congrArg decodePadded hpad
  rw [decodePadded_padStart, decodePadded_padStart] at this
  exact this

theorem preloadStep_eq (video : Option String) (folders : List String) (center : JSNum)
    (cache : List String) (i : Int) :
    preloadStep video folders center cache i =
      match stepUrl video folders center i with
      | some url => if url ∈ cache then cache else cache ++ [url]
      | none => cache := by
  unfold preloadStep stepUrl
  by_cases hi : i = 0
  · simp [hi]
  · simp only [hi, if_false]
    by_cases ht : truthy (some (findTargetFolder (jsAdd center (some i)) folders).1) = true
    · simp only [ht, if_true, cacheAdd, cacheHas]
      by_cases hmem : imagePath video (findTargetFolder (jsAdd center (some i)) folders).1
          (jsSub (jsAdd center (some i)) (findTargetFolder (jsAdd center (some i)) folders).2)
            ∈ cache
      · simp [hmem]
      · simp [hmem]
    · simp [ht]

theorem foldl_preloadStep (video : Option String) (folders : List String) (center : JSNum)
    (offsets : List Int) (cache : List String) :
    ∃ added, offsets.foldl (preloadStep video folders center) cache = cache ++ added ∧
      added.length ≤ offsets.length ∧
      (∀ url, url ∈ added ↔
        (url ∉ cache ∧ ∃ i ∈ offsets, stepUrl video folders center i = some url)) ∧
      (cache.Nodup → (cache ++ added).Nodup) := by
  induction offsets generalizing cache with
  | nil => exact ⟨[], by simp, by simp, by simp, by simp⟩
  | cons i rest ih =>
    rw [List.foldl_cons, preloadStep_eq]
    cases hstep : stepUrl video folders center i with
    | none =>
      obtain ⟨added, h1, h2, h3, h4⟩ := ih cache
      refine ⟨added, h1, by simp only [List.length_cons]; omega, ?_, h4⟩
      intro url
      rw [h3 url]
      constructor
      · rintro ⟨hn, j, hj, hu⟩
        exact ⟨hn, j, List.mem_cons_of_mem _ hj, hu⟩
      · rintro ⟨hn, j, hj, hu⟩
        rcases List.mem_cons.mp hj with rfl | hj
        · rw [hstep] at hu; cases hu
        · exact ⟨hn, j, hj, hu⟩
    | some p =>
      by_cases hp : p ∈ cache
      · simp only [hp, if_true]
        obtain ⟨added, h1, h2, h3, h4⟩ := ih cache
        refine ⟨added, h1, by simp only [List.length_cons]; omega, ?_, h4⟩
        intro url
        rw [h3 url]
        constructor
        · rintro ⟨hn, j, hj, hu⟩
          exact ⟨hn, j, List.mem_cons_of_mem _ hj, hu⟩
        · rintro ⟨hn, j, hj, hu⟩
          rcases List.mem_cons.mp hj with rfl | hj
          · rw [hstep] at hu
            cases hu
            exact absurd hp hn
          · exact ⟨hn, j, hj, hu⟩
      · simp only [hp, if_false]
        obtain ⟨added, h1, h2, h3, h4⟩ := ih (cache ++ [p])
        refine ⟨p :: added, ?_, by simp only [List.length_cons]; omega, ?_, ?_⟩
        · rw [h1]; simp
        · intro url
          constructor
          · intro hmem
            rcases List.mem_cons.mp hmem with rfl | hmem
            · exact ⟨hp, i, List.mem_cons_self _ _, hstep⟩
            · obtain ⟨hn, j, hj, hu⟩ := (h3 url).mp hmem
              exact ⟨fun hc => hn (List.mem_append_left _ hc), j, List.mem_cons_of_mem _ hj, hu⟩
          · rintro ⟨hn, j, hj, hu⟩
            by_cases hup : url = p
            · rw [hup]; exact List.mem_cons_self _ _
            · apply List.mem_cons_of_mem
              rcases List.mem_cons.mp hj with rfl | hj
              · rw [hstep] at hu
                exact absurd (Option.some.inj hu).symm hup
              · refine (h3 url).mpr ⟨?_, j, hj, hu⟩
                intro hc
                rcases List.mem_append.mp hc with hc | hc
                · exact hn hc
                · exact hup (List.mem_singleton.mp hc)
        · intro hnd
          have hnd1 : (cache ++ [p]).Nodup := by
            rw [List.nodup_append]
            refine ⟨hnd, List.nodup_singleton p, ?_⟩
            intro x hx hx'
            rw [List.mem_singleton] at hx'
            exact hp (hx' ▸ hx)
          have := h4 hnd1
          simpa using this

theorem cacheCleanup_added (cache added : List String) (hnd : (cache ++ added).Nodup)
    (hlen : added.length ≤ 80) (url : String) :
    (url ∈ cacheCleanup (cache ++ added) ∧ url ∉ cache) ↔ url ∈ added := by
  have hdisj := (List.nodup_append.mp hnd).2.2
  by_cases hlarge : 100 < (cache ++ added).length
  · rw [cacheCleanup_of_large _ hnd hlarge]
    have hk : (cache ++ added).length - 80 ≤ cache.length := by
      rw [List.length_append]; omega
    rw [List.drop_append_of_le_length hk]
    constructor
    · rintro ⟨hmem, hn⟩
      rcases List.mem_append.mp hmem with h | h
      · exact absurd (List.mem_of_mem_drop h) hn
      · exact h
    · intro h
      exact ⟨List.mem_append_right _ h, fun hc => hdisj hc h⟩
  · have hsmall : cacheCleanup (cache ++ added) = cache ++ added := by
      unfold cacheCleanup
      have : ¬ (cache ++ added).length > 100 := hlarge
      simp only [this, if_false]
    rw [hsmall]
    constructor
    · rintro ⟨hmem, hn⟩
      rcases List.mem_append.mp hmem with h | h
      · exact absurd h hn
      · exact h
    · intro h
      exact ⟨List.mem_append_right _ h, fun hc => hdisj hc h⟩

theorem mem_preloadOffsets (forward backward : Nat) (i : Int) :
    i ∈ preloadOffsets forward backward ↔ (-(backward : Int) ≤ i ∧ i ≤ (forward : Int)) := by
  unfold preloadOffsets
  simp only [List.mem_map, List.mem_range]
  constructor
  · rintro ⟨k, hk, rfl⟩
    omega
  · rintro ⟨h1, h2⟩
    refine ⟨(i + backward).toNat, ?_, ?_⟩ <;> omega

theorem inWindow_iff (direction i : Int) :
    inWindow direction i ↔
      (i ≠ 0 ∧ i ∈ preloadOffsets (preloadCounts direction).1 (preloadCounts direction).2) := by
  unfold inWindow preloadCounts
  rw [mem_preloadOffsets]
  by_cases h1 : direction > 0
  · simp [h1]
  · by_cases h2 : direction < 0
    · simp [h1, h2]
    · simp [h1, h2]

theorem findTargetFolder_none (t : Int) (folders : List String) (h : inNoRange folders t) :
    findTargetFolder (some t) folders = ("", some 0) := by
  induction folders with
  | nil => rfl
  | cons name rest ih =>
    have hname : inRange (some t) name = false := by
      have := h name (List.mem_cons_self _ _)
      rw [folderContains_iff] at this
      simpa using this
    unfold inRange at hname
    unfold findTargetFolder
    simp only [hname, Bool.false_eq_true, if_false]
    exact ih (fun n hn => h n (List.mem_cons_of_mem _ hn))

theorem findTargetFolder_first (t : Int) (folders : List String) (j : Nat) (name : String)
    (h : firstContaining folders t j) (hname : folders[j]? = some name) :
    findTargetFolder (some t) folders = (name, folderStart name) := by
  induction folders generalizing j with
  | nil => simp at hname
  | cons first rest ih =>
    obtain ⟨⟨n, hn, hc⟩, hfirst⟩ := h
    unfold findTargetFolder
    cases j with
    | zero =>
      simp only [List.getElem?_cons_zero, Option.some.injEq] at hn hname
      subst hn
      subst hname
      have := (folderContains_iff first t).mp hc
      unfold inRange at this
      simp [this]
    | succ j =>
      have hnot : inRange (some t) first = false := by
        have := hfirst 0 first (Nat.succ_pos j) (by simp)
        rw [folderContains_iff] at this
        simpa using this
      unfold inRange at hnot
      simp only [hnot, Bool.false_eq_true, if_false]
      refine ih j ⟨⟨n, by simpa using hn, hc⟩, ?_⟩ (by simpa using hname)
      intro i m hi hm
      exact hfirst (i + 1) m (by omega) (by simpa using hm)

theorem exists_firstContaining (t : Int) (folders : List String) (h : ¬ inNoRange folders t) :
    ∃ j, firstContaining folders t j := by
  induction folders with
  | nil => exact absurd (fun _ hn => by simp at hn) h
  | cons name rest ih =>
    by_cases hc : folderContains name t
    · exact ⟨0, ⟨name, by simp, hc⟩, fun j _ hj _ => absurd hj (Nat.not_lt_zero j)⟩
    · have hrest : ¬ inNoRange rest t := by
        intro hr
        apply h
        intro n hn
        rcases List.mem_cons.mp hn with rfl | hm
        · exact hc
        · exact hr n hm
      obtain ⟨j, ⟨n, hn, hcn⟩, hfirst⟩ := ih hrest
      refine ⟨j + 1, ⟨n, by simpa using hn, hcn⟩, ?_⟩
      intro i m hi hm
      cases i with
      | zero =>
        simp only [List.getElem?_cons_zero, Option.some.injEq] at hm
        subst hm
        exact hc
      | succ i => exact hfirst i m (by omega) (by simpa using hm)

theorem start_of_contains (name : String) (t : Int) (h : folderContains name t) :
    ∃ s, folderStart name = some s := by
  unfold folderContains at h
  cases hs : folderStart name with
  | none => rw [hs] at h; exact h.elim
  | some s => exact ⟨s, rfl⟩

theorem stepUrl_iff (video : Option String) (folders : List String) (c i : Int) (hi : i ≠ 0)
    (url : String) :
    stepUrl video folders (some c) i = some url ↔ frameUrl video folders (c + i) url := by
  have hadd : jsAdd (some c) (some i) = some (c + i) := rfl
  unfold stepUrl
  simp only [hi, if_false, hadd]
  constructor
  · intro h
    by_cases hno : inNoRange folders (c + i)
    · rw [findTargetFolder_none _ _ hno] at h
      simp [truthy] at h
    · obtain ⟨j, hj⟩ := exists_firstContaining _ _ hno
      obtain ⟨name, hname, hc⟩ := hj.1
      obtain ⟨s, hs⟩ := start_of_contains name _ hc
      rw [findTargetFolder_first _ _ j name hj hname] at h
      simp only [truthy_of_folderStart name s hs, if_true, hs, Option.some.injEq] at h
      exact ⟨j, name, s, hj, hname, hs, h.symm⟩
  · rintro ⟨j, name, s, hj, hname, hs, rfl⟩
    rw [findTargetFolder_first _ _ j name hj hname]
    simp only [truthy_of_folderStart name s hs, if_true, hs]
    rfl

theorem preloadOffsets_length (direction : Int) :
    (preloadOffsets (preloadCounts direction).1 (preloadCounts direction).2).length = 21 := by
  unfold preloadOffsets preloadCounts
  split
  · simp
  · split <;> simp

theorem preloadImages_cache (w : World) (k : Int) (name : String) (center : JSNum)
    (direction : Int) (hloaded : truthy w.state.currentVideo = true)
    (hfolder : arrayAt w.state.folders k = some name) (htruthy : truthy (some name) = true) :
    (preloadImages k center direction w).state.imageCache =
      cacheCleanup
        ((preloadOffsets (preloadCounts direction).1 (preloadCounts direction).2).foldl
          (preloadStep w.state.currentVideo w.state.folders
            (jsAdd (folderStart name) center)) w.state.imageCache) := by
  have hlen : (w.state.folders.length == 0) = false := by
    cases hf : w.state.folders with
    | nil => rw [hf] at hfolder; simp [arrayAt] at hfolder
    | cons a rest => simp
  unfold preloadImages
  simp only [hloaded, hlen, Bool.not_true, Bool.or_false, Bool.false_eq_true, if_false, hfolder,
    htruthy]

theorem preloadStep_of_inNoRange (video : Option String) (folders : List String) (c i : Int)
    (cache : List String) (h : inNoRange folders (c + i)) :
    preloadStep video folders (some c) cache i = cache := by
  rw [preloadStep_eq]
  have hnone : stepUrl video folders (some c) i = none := by
    have hadd : jsAdd (some c) (some i) = some (c + i) := rfl
    unfold stepUrl
    by_cases hi : i = 0
    · simp [hi]
    · simp only [hi, if_false, hadd, findTargetFolder_none _ _ h]
      simp [truthy]
  rw [hnone]

/-- C11: for every loaded video, every centre position (folder index `k`,
offset `o`) whose folder starts at `s`, so that the centre frame is
`c = s + o`, and every direction `d`, the URLs that
`preloadImages(k, o, d)` adds to the cache (those in the cache afterwards that
were not in it before) are exactly the not yet cached image URLs of the
frames `c + i` that lie in some folder range, for `i` in `[-b, a]`, `i != 0`,
with `(a, b) = (15, 5)` if `d > 0`, `(5, 15)` if `d < 0` and `(10, 10)` if
`d = 0`.  A round of the loop for a frame that lies in no range leaves the
cache as it is; the URL of the centre frame (the file of offset `o` in the
centre folder, and also the URL the locator gives the frame `c`) is not added;
and the call, which cannot throw, changes nothing but the cache. -/
theorem preloadImages_window (w : World) (k : Int) (name : String) (s o c d : Int)
    (hloaded : truthy w.state.currentVideo = true)
    (hfolder : arrayAt w.state.folders k = some name) (hs : folderStart name = some s)
    (hc : c = s + o) (hnodup : w.state.imageCache.Nodup) :
    (∀ url,
      (url ∈ (preloadImages k (some o) d w).state.imageCache ∧ url ∉ w.state.imageCache) ↔
        (url ∉ w.state.imageCache ∧
          ∃ i, inWindow d i ∧ frameUrl w.state.currentVideo w.state.folders (c + i) url)) ∧
    (∀ (cache : List String) (i : Int), inNoRange w.state.folders (c + i) →
      preloadStep w.state.currentVideo w.state.folders (some c) cache i = cache) ∧
    (imagePath w.state.currentVideo name (some o) ∈
        (preloadImages k (some o) d w).state.imageCache →
      imagePath w.state.currentVideo name (some o) ∈ w.state.imageCache) ∧
    (∀ url, frameUrl w.state.currentVideo w.state.folders c url →
      url ∈ (preloadImages k (some o) d w).state.imageCache → url ∈ w.state.imageCache) ∧
    (∃ cache, preloadImages k (some o) d w =
      { w with state := { w.state with imageCache := cache } }) := by
  have hcenter : jsAdd (folderStart name) (some o) = some c := by
    rw [hs, hc]; rfl
  have hcache := preloadImages_cache w k name (some o) d hloaded hfolder
    (truthy_of_folderStart name s hs)
  rw [hcenter] at hcache
  obtain ⟨added, hfold, hlen, hmem, hnd⟩ := foldl_preloadStep w.state.currentVideo
    w.state.folders (some c) (preloadOffsets (preloadCounts d).1 (preloadCounts d).2)
    w.state.imageCache
  rw [hfold] at hcache
  rw [preloadOffsets_length] at hlen
  have hadded : ∀ url,
      (url ∈ (preloadImages k (some o) d w).state.imageCache ∧ url ∉ w.state.imageCache) ↔
        (url ∉ w.state.imageCache ∧
          ∃ i, inWindow d i ∧ frameUrl w.state.currentVideo w.state.folders (c + i) url) := by
    intro url
    rw [hcache, cacheCleanup_added _ _ (hnd hnodup) (by omega), hmem url]
    constructor
    · rintro ⟨hn, i, hi, hstep⟩
      have hi0 : i ≠ 0 := by
        intro h0
        rw [h0] at hstep
        simp [stepUrl] at hstep
      exact ⟨hn, i, (inWindow_iff d i).mpr ⟨hi0, hi⟩, (stepUrl_iff _ _ c i hi0 url).mp hstep⟩
    · rintro ⟨hn, i, hi, hurl⟩
      obtain ⟨hi0, hioff⟩ := (inWindow_iff d i).mp hi
      exact ⟨hn, i, hioff, (stepUrl_iff _ _ c i hi0 url).mpr hurl⟩
  refine ⟨hadded, ?_, ?_, ?_, preloadImages_eq k (some o) d w⟩
  · intro cache i hno
    exact preloadStep_of_inNoRange _ _ c i cache hno
  · intro hin
    by_contra hout
    obtain ⟨_, i, hi, j, name', s', _, _, hs', heq⟩ :=
      (hadded (imagePath w.state.currentVideo name (some o))).mp ⟨hin, hout⟩
    obtain ⟨hname, hoff⟩ := imagePath_injective _ _ _ _ _ heq
    rw [← hname, hs] at hs'
    have hss : s = s' := Option.some.inj hs'
    exact hi.1 (by omega)
  · rintro url ⟨_, name0, s0, _, _, hs0, rfl⟩ hin
    by_contra hout
    obtain ⟨_, i, hi, j, name', s', _, _, hs', heq⟩ :=
      (hadded (imagePath w.state.currentVideo name0 (some (c - s0)))).mp ⟨hin, hout⟩
    obtain ⟨hname, hoff⟩ := imagePath_injective _ _ _ _ _ heq
    rw [← hname, hs0] at hs'
    have hss : s0 = s' := Option.some.inj hs'
    exact hi.1 (by omega)

/-- C11, witness: the two folder sample with the URLs of frames 1 and 2
already cached, centre `(0, 0)`, direction right.  The frames -5 to -1 lie in
no range; the call adds the URLs of the frames 3 to 15. -/
theorem preloadImages_window_witness :
    ((∀ url,
      (url ∈ (preloadImages 0 (some 0) 1 warmWorld).state.imageCache ∧
          url ∉ warmWorld.state.imageCache) ↔
        (url ∉ warmWorld.state.imageCache ∧
          ∃ i, inWindow 1 i ∧
            frameUrl warmWorld.state.currentVideo warmWorld.state.folders (0 + i) url)) ∧
      (∀ (cache : List String) (i : Int), inNoRange warmWorld.state.folders (0 + i) →
        preloadStep warmWorld.state.currentVideo warmWorld.state.folders (some 0) cache i =
          cache) ∧
      (imagePath warmWorld.state.currentVideo "0_999" (some 0) ∈
          (preloadImages 0 (some 0) 1 warmWorld).state.imageCache →
        imagePath warmWorld.state.currentVideo "0_999" (some 0) ∈ warmWorld.state.imageCache) ∧
      (∀ url, frameUrl warmWorld.state.currentVideo warmWorld.state.folders 0 url →
        url ∈ (preloadImages 0 (some 0) 1 warmWorld).state.imageCache →
          url ∈ warmWorld.state.imageCache) ∧
      (∃ cache, preloadImages 0 (some 0) 1 warmWorld =
        { warmWorld with state := { warmWorld.state with imageCache := cache } })) ∧
    (preloadImages 0 (some 0) 1 warmWorld).state.imageCache =
      (List.range 15).map
        (fun (n : Nat) => imagePath (some "match1") "0_999" (some ((n : Int) + 1))) ∧
    (preloadImages 0 (some 0) (-1) warmWorld).state.imageCache =
      (List.range 5).map
        (fun (n : Nat) => imagePath (some "match1") "0_999" (some ((n : Int) + 1))) :=
  ⟨preloadImages_window warmWorld 0 "0_999" 0 0 0 1 (by decide) (by decide) (by decide)
      (by decide) (by decide),
    by decide, by decide⟩

/-! ## C9: cache eviction at the end of `preloadImages` -/

theorem cacheAtCleanup_eq (w : World) (k : Int) (name : String) (center : JSNum)
    (direction : Int) (hfolder : arrayAt w.state.folders k = some name) :
    cacheAtCleanup k center direction w =
      (preloadOffsets (preloadCounts direction).1 (preloadCounts direction).2).foldl
        (preloadStep w.state.currentVideo w.state.folders (jsAdd (folderStart name) center))
        w.state.imageCache := by
  unfold cacheAtCleanup
  rw [hfolder]

/-- C9: for every call of `preloadImages` on a loaded video that gets past its
guards, with an image cache of distinct URLs: the cache the recording loop
hands to the cleanup step is the old cache followed by the newly recorded
URLs, all distinct.  If it holds more than 100 entries, the image cache after
the call has exactly 80 entries, they are the 80 most recently inserted (the
last 80 in insertion order) and every URL inserted before them is absent; if
it holds at most 100 entries, the cleanup leaves it untouched. -/
theorem preloadImages_evicts (w : World) (k : Int) (name : String) (center : JSNum)
    (direction : Int) (hloaded : truthy w.state.currentVideo = true)
    (hfolder : arrayAt w.state.folders k = some name) (htruthy : truthy (some name) = true)
    (hnodup : w.state.imageCache.Nodup) :
    (∃ added, cacheAtCleanup k center direction w = w.state.imageCache ++ added) ∧
    (cacheAtCleanup k center direction w).Nodup ∧
    (100 < (cacheAtCleanup k center direction w).length →
      (preloadImages k center direction w).state.imageCache.length = 80 ∧
      (preloadImages k center direction w).state.imageCache =
        (cacheAtCleanup k center direction w).drop
          ((cacheAtCleanup k center direction w).length - 80) ∧
      ∀ url ∈ (cacheAtCleanup k center direction w).take
          ((cacheAtCleanup k center direction w).length - 80),
        url ∉ (preloadImages k center direction w).state.imageCache) ∧
    ((cacheAtCleanup k center direction w).length ≤ 100 →
      (preloadImages k center direction w).state.imageCache =
        cacheAtCleanup k center direction w) := by
  have hnew := preloadImages_cache w k name center direction hloaded hfolder htruthy
  rw [← cacheAtCleanup_eq w k name center direction hfolder] at hnew
  obtain ⟨added, hfold, _, _, hnd⟩ := foldl_preloadStep w.state.currentVideo
    w.state.folders (jsAdd (folderStart name) center)
    (preloadOffsets (preloadCounts direction).1 (preloadCounts direction).2) w.state.imageCache
  rw [← cacheAtCleanup_eq w k name center direction hfolder] at hfold
  have hpre : (cacheAtCleanup k center direction w).Nodup := by
    rw [hfold]; exact hnd hnodup
  obtain ⟨hlarge, hsmall⟩ := cacheCleanup_evicts (cacheAtCleanup k center direction w) hpre
  rw [hnew]
  exact ⟨⟨added, hfold⟩, hpre, hlarge, hsmall⟩

theorem fullCache_nodup : fullCacheWorld.state.imageCache.Nodup := by
  show ((List.range 100).map
    (fun (n : Nat) => imagePath (some "match1") "1000_1999" (some (n : Int)))).Nodup
  refine (List.nodup_range 100).map ?_
  intro a b h
  have := (imagePath_injective _ _ _ _ _ h).2
  exact_mod_cast this

/-- C9, witness: the cache holds the 100 URLs of the frames 1000 to 1099; a
static `preloadImages(0, 0, 0)` records the URL of frame 1, so the cleanup
step finds 101 distinct URLs: afterwards the image cache has 80 entries and
the 20 earliest URLs are absent.  On the sample whose cache holds two URLs
the cleanup leaves the 15 entries it finds. -/
theorem preloadImages_evicts_witness :
    (cacheAtCleanup 0 (some 0) 0 fullCacheWorld).length = 101 ∧
    (preloadImages 0 (some 0) 0 fullCacheWorld).state.imageCache.length = 80 ∧
    (∀ url ∈ fullCacheWorld.state.imageCache.take 20,
      url ∉ (preloadImages 0 (some 0) 0 fullCacheWorld).state.imageCache) ∧
    imagePath (some "match1") "0_1" (some 1) ∈
      (preloadImages 0 (some 0) 0 fullCacheWorld).state.imageCache ∧
    (cacheAtCleanup 0 (some 0) 1 warmWorld).length = 15 ∧
    (preloadImages 0 (some 0) 1 warmWorld).state.imageCache =
      cacheAtCleanup 0 (some 0) 1 warmWorld := by
  have hlen : (cacheAtCleanup 0 (some 0) 0 fullCacheWorld).length = 101 := by decide
  have hlen2 : (cacheAtCleanup 0 (some 0) 1 warmWorld).length = 15 := by decide
  obtain ⟨⟨added, hadd⟩, _, hbig, _⟩ := preloadImages_evicts fullCacheWorld 0 "0_1" (some 0) 0
    (by decide) (by decide) (by decide) fullCache_nodup
  obtain ⟨h80, hdrop, habsent⟩ := hbig (by rw [hlen]; decide)
  obtain ⟨_, _, _, hsmall⟩ := preloadImages_evicts warmWorld 0 "0_999" (some 0) 1
    (by decide) (by decide) (by decide) (by decide)
  refine ⟨hlen, h80, ?_, ?_, hlen2, hsmall (by rw [hlen2]; decide)⟩
  · intro url hurl
    apply habsent
    rw [hlen, hadd]
    have h100 : fullCacheWorld.state.imageCache.length = 100 := by decide
    have h21 : List.take (101 - 80) (fullCacheWorld.state.imageCache ++ added) =
        List.take 21 fullCacheWorld.state.imageCache := by
      rw [List.take_append_of_le_length (by rw [h100]; decide)]
    rw [h21]
    exact List.take_subset_take_left _ (by decide) hurl
  · rw [hdrop, hlen]
    decide

end Volleyball
